import Mathlib

/-!
Shallow embedding of the bluedroid GATT-server registration / event-dispatch
core (src/gatt_server/gatts_event_handler.rs and src/gatt_server/characteristic.rs).

Stack interaction is modelled by recording the outbound stack calls the code
issues, in order, in a `List Call`.  Fallible code (Rust `panic!` / `expect` /
`unwrap`) is modelled with `Except String`: an `Except.error` is a fatal,
process-terminating abort.  Machine integers (`u16`, `u32`) are modelled as
`Nat`, with an explicit `% 65536` where the source performs an `as u16` cast.

Structures and methods whose source files are not part of the repository
snapshot (`Descriptor`, `Service`, `Profile`, `GattServer` and their
registration helpers) are modelled from the specification text; each such
definition carries a doc comment saying so.
-/

namespace Bluedroid

/-- A BLE UUID: a 16-, 32- or 128-bit identifier.  Equality is structural and
is the sole correlation key used to match stack confirmations to entities. -/
inductive BleUuid where
  | uuid16 (v : Nat)
  | uuid32 (v : Nat)
  | uuid128 (v : List Nat)
deriving DecidableEq

/-- `AttributeControl` as used by `Characteristic` (utilities module):
whether the stack answers reads itself or defers to the application. -/
inductive AttributeControl where
  | ResponseByApp
  | AutomaticResponse
deriving DecidableEq

/-- `esp_gatt_status_t_ESP_GATT_OK` (and `ESP_BT_STATUS_SUCCESS`): 0. -/
def ESP_GATT_OK : Nat := 0

/-- The `esp_gatt_rsp_t` / `esp_gatt_value_t` payload of a read response. -/
structure GattRsp where
  authReq : Nat
  handle : Nat
  len : Nat
  offset : Nat
  value : List Nat
deriving DecidableEq

/-- An outbound call from the core to the BLE stack, with its arguments. -/
inductive Call where
  | setDeviceName (name : String)
  | configAdvData (setScanRsp : Bool) (data : Nat)
  | startAdvertising (params : Nat)
  | addService (iface : Nat) (uuid : BleUuid) (isPrimary : Bool)
  | startService (handle : Nat)
  | addChar (serviceHandle : Nat) (uuid : BleUuid) (permissions properties : Nat)
      (attrMaxLen attrLen : Nat) (value : List Nat)
  | addDescriptor (parentHandle : Nat) (uuid : BleUuid) (permissions : Nat)
  | sendResponse (gattsIf connId transId status : Nat) (rsp : GattRsp)
deriving DecidableEq

/-- An inbound stack event (`esp_gatts_cb_event_t` together with the relevant
fields of `esp_ble_gatts_cb_param_t`).  `other` stands for any event code the
handler does not recognize. -/
inductive GattsEvent where
  | connect (remoteBda : List Nat)
  | disconnect (remoteBda : List Nat)
  | mtu (newMtu : Nat)
  | reg (status appId : Nat)
  | create (status : Nat) (serviceUuid : BleUuid) (serviceHandle : Nat)
  | start (status serviceHandle : Nat)
  | addChar (status : Nat) (charUuid : BleUuid) (attrHandle : Nat)
  | addCharDescr (status : Nat) (descrUuid : BleUuid) (attrHandle : Nat)
  | read (connId transId handle : Nat)
  | other (code : Nat)
deriving DecidableEq

/-- Modelled from the spec: `Descriptor` holds a uuid, permissions and an
`attribute_handle : Option Handle` (its source file is not in the snapshot;
the fields are also visible from their uses in `gatts_event_handler.rs`). -/
structure Descriptor where
  uuid : BleUuid
  permissions : Nat
  attribute_handle : Option Nat
deriving DecidableEq

/-- Modelled from the spec: a freshly constructed `Descriptor` has
`attribute_handle = None`. -/
def Descriptor.new (uuid : BleUuid) (permissions : Nat) : Descriptor :=
  { uuid := uuid, permissions := permissions, attribute_handle := none }

/-- `Characteristic` (src/gatt_server/characteristic.rs). -/
structure Characteristic where
  name : Option String
  uuid : BleUuid
  value : List Nat
  descriptors : List Descriptor
  attribute_handle : Option Nat
  service_handle : Option Nat
  permissions : Nat
  properties : Nat
  control : AttributeControl
deriving DecidableEq

/-- `Characteristic::new` (src/gatt_server/characteristic.rs, lines 26-43). -/
def Characteristic.new (name : String) (uuid : BleUuid)
    (permissions : Nat) (properties : Nat) : Characteristic :=
  { name := some name
    uuid := uuid
    value := []
    descriptors := []
    attribute_handle := none
    service_handle := none
    permissions := permissions
    properties := properties
    control := AttributeControl.ResponseByApp }

/-- Modelled from the spec: `Service` holds a uuid, an `is_primary` flag, a
`handle : Option Handle` and an ordered list of characteristics (its source
file is not in the snapshot; the fields are also visible from their uses in
`gatts_event_handler.rs`). -/
structure Service where
  uuid : BleUuid
  is_primary : Bool
  handle : Option Nat
  characteristics : List Characteristic
deriving DecidableEq

/-- Modelled from the spec: a freshly constructed `Service` has
`handle = None`. -/
def Service.new (uuid : BleUuid) (is_primary : Bool)
    (characteristics : List Characteristic) : Service :=
  { uuid := uuid, is_primary := is_primary, handle := none
    characteristics := characteristics }

/-- Modelled from the spec: `Profile` holds an application identifier, an
`interface : Option InterfaceHandle` and an ordered list of services. -/
structure Profile where
  identifier : Nat
  interface : Option Nat
  services : List Service
deriving DecidableEq

/-- `GattServer` fields, as used by `gatts_event_handler.rs`
(`profiles`, `advertisement_parameters`, `advertisement_data`, `name_set`);
the advertising parameter/payload records are opaque to this core and are
modelled as `Nat`. -/
structure GattServer where
  profiles : List Profile
  advertisement_parameters : Nat
  advertisement_data : Nat
  name_set : Bool
deriving DecidableEq

/-- Modelled from the spec: `Descriptor.register(parent_handle)` issues the
stack add-descriptor call for the given parent handle (spec section 4.1); the
descriptor source file is not in the snapshot. -/
def Descriptor.register_self (d : Descriptor) (parentHandle : Nat) : List Call :=
  [Call.addDescriptor parentHandle d.uuid d.permissions]

/-- `Characteristic::register_self` (src/gatt_server/characteristic.rs,
lines 52-77): store `service_handle`, panic if `control` is
`AutomaticResponse` while `value` is empty, otherwise issue
`esp_ble_gatts_add_char` with an `esp_attr_value_t` whose `attr_max_len` and
`attr_len` are both `value.len() as u16`. -/
def Characteristic.register_self (c : Characteristic) (service_handle : Nat) :
    Except String (Characteristic × List Call) :=
  let c' := { c with service_handle := some service_handle }
  if c.control = AttributeControl.AutomaticResponse ∧ c.value.length = 0 then
    Except.error "Cannot set attribute control to Auto without a value."
  else
    Except.ok (c',
      [Call.addChar service_handle c.uuid c.permissions c.properties
        (c.value.length % 65536) (c.value.length % 65536) c.value])

/-- The per-descriptor loop of `Characteristic::register_descriptors`: the
`expect` on `service_handle` is evaluated once per descriptor, inside the
closure, so an unset handle only aborts when at least one descriptor exists. -/
def registerDescriptorsAux : Option Nat → List Descriptor → Except String (List Call)
  | _, [] => Except.ok []
  | none, _ :: _ =>
      Except.error "Cannot register a descriptor to a characteristic without a service handle."
  | some h, d :: ds =>
      match registerDescriptorsAux (some h) ds with
      | Except.error e => Except.error e
      | Except.ok cs => Except.ok (d.register_self h ++ cs)

/-- `Characteristic::register_descriptors` (src/gatt_server/characteristic.rs,
lines 91-100): for every owned descriptor, in declaration order, call
`Descriptor::register_self(self.service_handle.expect(..))`. -/
def Characteristic.register_descriptors (c : Characteristic) : Except String (List Call) :=
  registerDescriptorsAux c.service_handle c.descriptors

/-- The per-characteristic loop of `Service::register_characteristics`. -/
def registerCharacteristicsAux (h : Nat) :
    List Characteristic → Except String (List Characteristic × List Call)
  | [] => Except.ok ([], [])
  | c :: cs =>
      match c.register_self h with
      | Except.error e => Except.error e
      | Except.ok (c', calls) =>
        match registerCharacteristicsAux h cs with
        | Except.error e => Except.error e
        | Except.ok (cs', rest) => Except.ok (c' :: cs', calls ++ rest)

/-- Modelled from the spec: `Service::register_characteristics` (spec section
4.3; the service source file is not in the snapshot): for every owned
characteristic, in declaration order, call
`Characteristic.register(self.handle)`; precondition: `self.handle` is set. -/
def Service.register_characteristics (s : Service) :
    Except String (Service × List Call) :=
  match s.handle with
  | none => Except.error "Cannot register characteristics to a service without a handle."
  | some h =>
    match registerCharacteristicsAux h s.characteristics with
    | Except.error e => Except.error e
    | Except.ok (cs, calls) => Except.ok ({ s with characteristics := cs }, calls)

/-- Modelled from the spec: `Service::register(profile_interface)` issues the
stack add-service call and records nothing synchronously (spec section 4.3). -/
def Service.register (s : Service) (iface : Nat) : List Call :=
  [Call.addService iface s.uuid s.is_primary]

/-- Modelled from the spec: `Profile::register_services` (spec section 4.4):
for every owned service, in declaration order, call
`Service.register(self.interface)`; precondition: `self.interface` is set. -/
def Profile.register_services (p : Profile) : Except String (List Call) :=
  match p.interface with
  | none => Except.error "Cannot register services without an interface."
  | some i => Except.ok ((p.services.map (fun s => s.register i)).flatten)

/-- The `ESP_GATTS_CREATE_EVT` walk over `self.services`
(gatts_event_handler.rs lines 132-158): find the first service whose UUID
equals the event's service UUID (`expect` if none), set its `handle` to the
event's service handle, then — only on success status — issue
`esp_ble_gatts_start_service` and `register_characteristics`. -/
def profileCreate (status : Nat) (u : BleUuid) (h : Nat) :
    List Service → Except String (List Service × List Call)
  | [] => Except.error "Cannot find service described by received handle."
  | s :: rest =>
    if s.uuid = u then
      let s' := { s with handle := some h }
      if status ≠ ESP_GATT_OK then
        Except.ok (s' :: rest, [])
      else
        match s'.register_characteristics with
        | Except.error e => Except.error e
        | Except.ok (s'', calls) => Except.ok (s'' :: rest, Call.startService h :: calls)
    else
      match profileCreate status u h rest with
      | Except.error e => Except.error e
      | Except.ok (rest', calls) => Except.ok (s :: rest', calls)

/-- The `ESP_GATTS_START_EVT` walk (lines 159-173): find the service whose
`handle` equals the event's handle (`expect` if none); log only. -/
def profileStart (h : Nat) : List Service → Except String Unit
  | [] => Except.error "Cannot find service described by received handle."
  | s :: rest => if s.handle = some h then Except.ok () else profileStart h rest

/-- The inner characteristic search of `ESP_GATTS_ADD_CHAR_EVT` within one
service's characteristic list; `none` means no characteristic of this service
has the event's UUID. -/
def addCharChars (status : Nat) (u : BleUuid) (ah : Nat) :
    List Characteristic → Option (Except String (List Characteristic × List Call))
  | [] => none
  | c :: cs =>
    if c.uuid = u then
      some (
        if status ≠ ESP_GATT_OK then Except.ok (c :: cs, [])
        else
          let c' := { c with attribute_handle := some ah }
          match c'.register_descriptors with
          | Except.error e => Except.error e
          | Except.ok calls => Except.ok (c' :: cs, calls))
    else
      match addCharChars status u ah cs with
      | none => none
      | some (Except.error e) => some (Except.error e)
      | some (Except.ok (cs', calls)) => some (Except.ok (c :: cs', calls))

/-- The `ESP_GATTS_ADD_CHAR_EVT` walk (lines 174-194): find the first
characteristic across all services whose UUID equals the event's UUID
(`expect` if none); on success status set its `attribute_handle` and call
`register_descriptors`. -/
def profileAddChar (status : Nat) (u : BleUuid) (ah : Nat) :
    List Service → Except String (List Service × List Call)
  | [] => Except.error "Cannot find characteristic described by received UUID."
  | s :: rest =>
    match addCharChars status u ah s.characteristics with
    | some (Except.error e) => Except.error e
    | some (Except.ok (cs, calls)) =>
        Except.ok ({ s with characteristics := cs } :: rest, calls)
    | none =>
      match profileAddChar status u ah rest with
      | Except.error e => Except.error e
      | Except.ok (rest', calls) => Except.ok (s :: rest', calls)

/-- The inner descriptor search of `ESP_GATTS_ADD_CHAR_DESCR_EVT` within one
characteristic's descriptor list. -/
def addDescrDescrs (status : Nat) (u : BleUuid) (ah : Nat) :
    List Descriptor → Option (List Descriptor)
  | [] => none
  | d :: ds =>
    if d.uuid = u then
      some ((if status ≠ ESP_GATT_OK then d
             else { d with attribute_handle := some ah }) :: ds)
    else
      match addDescrDescrs status u ah ds with
      | none => none
      | some ds' => some (d :: ds')

/-- The characteristic-level walk of `ESP_GATTS_ADD_CHAR_DESCR_EVT`. -/
def addDescrChars (status : Nat) (u : BleUuid) (ah : Nat) :
    List Characteristic → Option (List Characteristic)
  | [] => none
  | c :: cs =>
    match addDescrDescrs status u ah c.descriptors with
    | some ds' => some ({ c with descriptors := ds' } :: cs)
    | none =>
      match addDescrChars status u ah cs with
      | none => none
      | some cs' => some (c :: cs')

/-- The `ESP_GATTS_ADD_CHAR_DESCR_EVT` walk (lines 195-215): find the first
descriptor across all services and characteristics whose UUID equals the
event's UUID (`expect` if none); on success status set its
`attribute_handle`; no further cascade. -/
def profileAddDescr (status : Nat) (u : BleUuid) (ah : Nat) :
    List Service → Except String (List Service)
  | [] => Except.error "Cannot find descriptor described by received UUID."
  | s :: rest =>
    match addDescrChars status u ah s.characteristics with
    | some cs' => Except.ok ({ s with characteristics := cs' } :: rest)
    | none =>
      match profileAddDescr status u ah rest with
      | Except.error e => Except.error e
      | Except.ok rest' => Except.ok (s :: rest')

/-- The fixed `esp_gatt_rsp_t` literal the `ESP_GATTS_READ_EVT` arm builds
(lines 229-237): `auth_req: 0, handle: param.handle, len: 1, offset: 1,
value: [0; 600]` — independent of any characteristic's stored value. -/
def stubRsp (handle : Nat) : GattRsp :=
  { authReq := 0, handle := handle, len := 1, offset := 1
    value := List.replicate 600 0 }

/-- The `ESP_GATTS_READ_EVT` double loop (lines 216-249): for every
characteristic whose `attribute_handle` equals the event's handle, send one
response (status `ESP_GATT_OK`, payload `stubRsp`); descriptor matches in the
`else` branch only log. -/
def readRespCalls (gattsIf connId transId handle : Nat)
    (services : List Service) : List Call :=
  (services.map (fun s =>
    (s.characteristics.map (fun c =>
      if c.attribute_handle = some handle then
        [Call.sendResponse gattsIf connId transId ESP_GATT_OK (stubRsp handle)]
      else [])).flatten)).flatten

/-- `Profile::gatts_event_handler` (gatts_event_handler.rs lines 107-254). -/
def Profile.gatts_event_handler (p : Profile) (gattsIf : Nat) (e : GattsEvent) :
    Except String (Profile × List Call) :=
  match e with
  | GattsEvent.reg status _ =>
    if status ≠ ESP_GATT_OK then
      Except.ok (p, [])
    else
      match p.interface with
      | none => Except.error "called Option::unwrap on a None value"
      | some _ =>
        match p.register_services with
        | Except.error er => Except.error er
        | Except.ok calls => Except.ok (p, calls)
  | GattsEvent.create status u h =>
    match profileCreate status u h p.services with
    | Except.error er => Except.error er
    | Except.ok (ss, calls) => Except.ok ({ p with services := ss }, calls)
  | GattsEvent.start _ h =>
    match profileStart h p.services with
    | Except.error er => Except.error er
    | Except.ok _ => Except.ok (p, [])
  | GattsEvent.addChar status u ah =>
    match profileAddChar status u ah p.services with
    | Except.error er => Except.error er
    | Except.ok (ss, calls) => Except.ok ({ p with services := ss }, calls)
  | GattsEvent.addCharDescr status u ah =>
    match profileAddDescr status u ah p.services with
    | Except.error er => Except.error er
    | Except.ok ss => Except.ok ({ p with services := ss }, [])
  | GattsEvent.read connId transId handle =>
    Except.ok (p, readRespCalls gattsIf connId transId handle p.services)
  | _ => Except.ok (p, [])

/-- The `self.profiles.iter_mut().for_each(..)` dispatch loop
(gatts_event_handler.rs lines 98-103): forward the event to every profile
whose `interface` equals the reporting interface. -/
def dispatchProfiles (gattsIf : Nat) (e : GattsEvent) :
    List Profile → Except String (List Profile × List Call)
  | [] => Except.ok ([], [])
  | p :: ps =>
    match (if p.interface = some gattsIf then p.gatts_event_handler gattsIf e
           else Except.ok (p, [])) with
    | Except.error er => Except.error er
    | Except.ok (p', calls) =>
      match dispatchProfiles gattsIf e ps with
      | Except.error er => Except.error er
      | Except.ok (ps', rest) => Except.ok (p' :: ps', calls ++ rest)

/-- The `ESP_GATTS_REG_EVT` profile lookup (lines 62-68): find the profile
whose `identifier` equals the event's `app_id` (`expect` if none) and set its
`interface`. -/
def setProfileInterface (appId gattsIf : Nat) :
    List Profile → Except String (List Profile)
  | [] => Except.error "No profile found with received identifier."
  | p :: ps =>
    if p.identifier = appId then
      Except.ok ({ p with interface := some gattsIf } :: ps)
    else
      match setProfileInterface appId gattsIf ps with
      | Except.error er => Except.error er
      | Except.ok ps' => Except.ok (p :: ps')

/-- `GattServer::gatts_event_handler` (gatts_event_handler.rs lines 17-105). -/
def GattServer.gatts_event_handler (srv : GattServer) (gattsIf : Nat)
    (e : GattsEvent) : Except String (GattServer × List Call) :=
  match e with
  | GattsEvent.connect _ => Except.ok (srv, [])
  | GattsEvent.disconnect _ =>
      Except.ok (srv, [Call.startAdvertising srv.advertisement_parameters])
  | GattsEvent.mtu _ => Except.ok (srv, [])
  | GattsEvent.reg status appId =>
    if status = ESP_GATT_OK then
      match setProfileInterface appId gattsIf srv.profiles with
      | Except.error er => Except.error er
      | Except.ok profiles' =>
        if srv.name_set then
          match dispatchProfiles gattsIf e profiles' with
          | Except.error er => Except.error er
          | Except.ok (ps, calls) => Except.ok ({ srv with profiles := ps }, calls)
        else
          match dispatchProfiles gattsIf e profiles' with
          | Except.error er => Except.error er
          | Except.ok (ps, calls) =>
            Except.ok ({ srv with profiles := ps, name_set := true },
              Call.setDeviceName "ESP32-GATT-Server" ::
              Call.configAdvData false srv.advertisement_data ::
              Call.configAdvData true srv.advertisement_data :: calls)
    else
      match dispatchProfiles gattsIf e srv.profiles with
      | Except.error er => Except.error er
      | Except.ok (ps, calls) => Except.ok ({ srv with profiles := ps }, calls)
  | _ =>
    match dispatchProfiles gattsIf e srv.profiles with
    | Except.error er => Except.error er
    | Except.ok (ps, calls) => Except.ok ({ srv with profiles := ps }, calls)

/-- Run the profile-level dispatcher over a sequence of (interface, event)
pairs, accumulating the outbound calls in order. -/
def runProfileEvents (p : Profile) :
    List (Nat × GattsEvent) → Except String (Profile × List Call)
  | [] => Except.ok (p, [])
  | (gif, e) :: rest =>
    match p.gatts_event_handler gif e with
    | Except.error er => Except.error er
    | Except.ok (p', calls) =>
      match runProfileEvents p' rest with
      | Except.error er => Except.error er
      | Except.ok (p'', more) => Except.ok (p'', calls ++ more)

/-- Run the server-level dispatcher over a sequence of (interface, event)
pairs, accumulating the outbound calls in order. -/
def runEvents (srv : GattServer) :
    List (Nat × GattsEvent) → Except String (GattServer × List Call)
  | [] => Except.ok (srv, [])
  | (gif, e) :: rest =>
    match srv.gatts_event_handler gif e with
    | Except.error er => Except.error er
    | Except.ok (srv', calls) =>
      match runEvents srv' rest with
      | Except.error er => Except.error er
      | Except.ok (srv'', more) => Except.ok (srv'', calls ++ more)

/-- The invalid-configuration predicate of `Characteristic::register_self`:
automatic (stack-managed) response with an empty value buffer. -/
def violAuto (c : Characteristic) : Prop :=
  c.control = AttributeControl.AutomaticResponse ∧ c.value.length = 0

instance (c : Characteristic) : Decidable (violAuto c) := by
  unfold violAuto; infer_instance

/-- The characteristic as mutated by a successful `register_self h`. -/
def registeredChar (h : Nat) (c : Characteristic) : Characteristic :=
  { c with service_handle := some h }

/-- The add-characteristic stack call issued by `register_self h`. -/
def addCharCall (h : Nat) (c : Characteristic) : Call :=
  Call.addChar h c.uuid c.permissions c.properties
    (c.value.length % 65536) (c.value.length % 65536) c.value

lemma register_self_err (c : Characteristic) (h : Nat) (hv : violAuto c) :
    c.register_self h =
      Except.error "Cannot set attribute control to Auto without a value." := by
  have hv' : c.control = AttributeControl.AutomaticResponse ∧ c.value.length = 0 := hv
  simp only [Characteristic.register_self]
  rw [if_pos hv']

lemma register_self_ok (c : Characteristic) (h : Nat) (hv : ¬ violAuto c) :
    c.register_self h = Except.ok (registeredChar h c, [addCharCall h c]) := by
  have hv' : ¬ (c.control = AttributeControl.AutomaticResponse ∧ c.value.length = 0) := hv
  simp only [Characteristic.register_self]
  rw [if_neg hv']
  rfl

lemma registerDescriptorsAux_some (h : Nat) (ds : List Descriptor) :
    registerDescriptorsAux (some h) ds =
      Except.ok ((ds.map (fun d => d.register_self h)).flatten) := by
  induction ds with
  | nil => rfl
  | cons d ds ih => simp [registerDescriptorsAux, ih]

lemma registerCharacteristicsAux_ok (h : Nat) (cs : List Characteristic)
    (hv : ∀ c ∈ cs, ¬ violAuto c) :
    registerCharacteristicsAux h cs =
      Except.ok (cs.map (registeredChar h), cs.map (addCharCall h)) := by
  induction cs with
  | nil => rfl
  | cons c cs ih =>
    have hc : ¬ violAuto c := hv c (List.mem_cons_self c cs)
    have hrest : ∀ x ∈ cs, ¬ violAuto x := fun x hx => hv x (List.mem_cons_of_mem c hx)
    simp [registerCharacteristicsAux, register_self_ok c h hc, ih hrest]

lemma register_characteristics_ok (s : Service) (h : Nat)
    (hh : s.handle = some h) (hv : ∀ c ∈ s.characteristics, ¬ violAuto c) :
    s.register_characteristics =
      Except.ok ({ s with characteristics := s.characteristics.map (registeredChar h) },
        s.characteristics.map (addCharCall h)) := by
  simp [Service.register_characteristics, hh,
    registerCharacteristicsAux_ok h s.characteristics hv]

lemma profileCreate_notfound (status : Nat) (u : BleUuid) (h : Nat)
    (services : List Service) (hnone : ∀ x ∈ services, x.uuid ≠ u) :
    profileCreate status u h services =
      Except.error "Cannot find service described by received handle." := by
  induction services with
  | nil => rfl
  | cons s rest ih =>
    have hs : s.uuid ≠ u := hnone s (List.mem_cons_self s rest)
    have hrest : ∀ x ∈ rest, x.uuid ≠ u := fun x hx => hnone x (List.mem_cons_of_mem s hx)
    simp [profileCreate, hs, ih hrest]

lemma profileCreate_fail (status : Nat) (u : BleUuid) (h : Nat)
    (pre : List Service) (s : Service) (post : List Service)
    (hpre : ∀ x ∈ pre, x.uuid ≠ u) (hu : s.uuid = u) (hst : status ≠ ESP_GATT_OK) :
    profileCreate status u h (pre ++ s :: post) =
      Except.ok (pre ++ ({ s with handle := some h }) :: post, []) := by
  induction pre with
  | nil => simp [profileCreate, hu, hst]
  | cons x xs ih =>
    have hx : x.uuid ≠ u := hpre x (List.mem_cons_self x xs)
    have hxs : ∀ y ∈ xs, y.uuid ≠ u := fun y hy => hpre y (List.mem_cons_of_mem x hy)
    simp [profileCreate, hx, ih hxs]

lemma profileCreate_ok (u : BleUuid) (h : Nat)
    (pre : List Service) (s : Service) (post : List Service)
    (hpre : ∀ x ∈ pre, x.uuid ≠ u) (hu : s.uuid = u)
    (hv : ∀ c ∈ s.characteristics, ¬ violAuto c) :
    profileCreate ESP_GATT_OK u h (pre ++ s :: post) =
      Except.ok (pre ++
        ({ s with handle := some h,
                  characteristics := s.characteristics.map (registeredChar h) }) :: post,
        Call.startService h :: s.characteristics.map (addCharCall h)) := by
  subst hu
  induction pre with
  | nil =>
    have hreg := register_characteristics_ok { s with handle := some h } h rfl hv
    simp [profileCreate, ESP_GATT_OK, hreg]
  | cons x xs ih =>
    have hx : x.uuid ≠ s.uuid := hpre x (List.mem_cons_self x xs)
    have hxs : ∀ y ∈ xs, y.uuid ≠ s.uuid := fun y hy => hpre y (List.mem_cons_of_mem x hy)
    simp [profileCreate, hx, ih hxs]

/-- C6: a disconnect event triggers exactly one start-advertising call with
the server's stored advertising parameters, returns without per-profile
dispatch, and leaves the whole server state (every profile's interface and
every entity handle) unchanged. -/
theorem disconnect_restarts_advertising (srv : GattServer) (gattsIf : Nat)
    (bda : List Nat) :
    srv.gatts_event_handler gattsIf (GattsEvent.disconnect bda) =
      Except.ok (srv, [Call.startAdvertising srv.advertisement_parameters]) := rfl

/-- C7: if a characteristic is in automatic-response mode with an empty value
buffer, `register_self` aborts fatally and issues no stack call; otherwise the
fatal branch is not taken and the add-characteristic stack call is issued. -/
theorem auto_response_requires_value (c : Characteristic) (h : Nat) :
    if violAuto c then
      c.register_self h =
        Except.error "Cannot set attribute control to Auto without a value."
    else
      c.register_self h = Except.ok (registeredChar h c, [addCharCall h c]) := by
  by_cases hv : violAuto c
  · rw [if_pos hv]; exact register_self_err c h hv
  · rw [if_neg hv]; exact register_self_ok c h hv

/-! Concrete entities used by witnesses and counterexamples. -/

/-- A concrete descriptor. -/
def dEx : Descriptor := { uuid := BleUuid.uuid16 20, permissions := 3, attribute_handle := none }

/-- A concrete characteristic that is fully registered (both handles set),
with one descriptor and a one-byte value. -/
def cEx : Characteristic :=
  { name := some "ex", uuid := BleUuid.uuid16 21, value := [7],
    descriptors := [dEx], attribute_handle := some 7, service_handle := some 5,
    permissions := 1, properties := 2, control := AttributeControl.ResponseByApp }

/-- A freshly constructed characteristic with one fresh descriptor. -/
def cFreshD : Characteristic :=
  { Characteristic.new "fresh" (BleUuid.uuid16 21) 1 2 with
    descriptors := [Descriptor.new (BleUuid.uuid16 31) 3] }

/-- A freshly constructed service owning `cFreshD`. -/
def sEx : Service := Service.new (BleUuid.uuid16 1) true [cFreshD]

/-- A profile owning `sEx`, already registered on interface 3. -/
def pEx : Profile := { identifier := 100, interface := some 3, services := [sEx] }

/-- C2 counterexample: `register_descriptors` passes the characteristic's
`service_handle` (5), not its `attribute_handle` (7), as the parent handle of
the add-descriptor call; and it does not abort when `attribute_handle` is
unset. -/
theorem register_descriptors_parent_cex :
    cEx.register_descriptors = Except.ok [Call.addDescriptor 5 (BleUuid.uuid16 20) 3] ∧
    cEx.attribute_handle = some 7 ∧ (5 : Nat) ≠ 7 ∧
    ({ cEx with attribute_handle := none } : Characteristic).register_descriptors =
      Except.ok [Call.addDescriptor 5 (BleUuid.uuid16 20) 3] :=
  ⟨rfl, rfl, by decide, rfl⟩

/-- C2 (amended): `register_descriptors` calls `Descriptor.register` once per
owned descriptor in declaration order, passing the characteristic's
`service_handle` as the parent handle; it aborts fatally when `service_handle`
is unset and at least one descriptor exists. -/
theorem register_descriptors_amended (c : Characteristic) (h : Nat) :
    (c.service_handle = some h →
      c.register_descriptors =
        Except.ok ((c.descriptors.map (fun d => d.register_self h)).flatten)) ∧
    (c.service_handle = none → c.descriptors ≠ [] →
      c.register_descriptors =
        Except.error "Cannot register a descriptor to a characteristic without a service handle.") := by
  constructor
  · intro hs
    unfold Characteristic.register_descriptors
    rw [hs, registerDescriptorsAux_some]
  · intro hs hd
    unfold Characteristic.register_descriptors
    rw [hs]
    cases hds : c.descriptors with
    | nil => exact absurd hds hd
    | cons d ds => rfl

/-- Witness for `register_descriptors_amended` at `cEx`. -/
theorem register_descriptors_amended_witness :
    cEx.service_handle = some 5 ∧
    cEx.register_descriptors = Except.ok [Call.addDescriptor 5 (BleUuid.uuid16 20) 3] :=
  ⟨rfl, (register_descriptors_amended cEx 5).1 rfl⟩

/-- A characteristic whose value buffer has 65536 bytes, exercising the
`as u16` cast in `register_self`. -/
def oversizedChar : Characteristic :=
  { name := some "big", uuid := BleUuid.uuid16 9, value := List.replicate 65536 1,
    descriptors := [], attribute_handle := none, service_handle := none,
    permissions := 0, properties := 0, control := AttributeControl.ResponseByApp }

/-- C8 counterexample: for a 65536-byte value buffer the issued
add-characteristic call carries `attr_max_len = attr_len = 0`, not the buffer
length, because `value.len() as u16` truncates modulo 2^16. -/
theorem attr_len_truncated_cex :
    oversizedChar.register_self 5 =
      Except.ok ({ oversizedChar with service_handle := some 5 },
        [Call.addChar 5 (BleUuid.uuid16 9) 0 0 0 0 oversizedChar.value]) ∧
    oversizedChar.value.length = 65536 ∧ (0 : Nat) ≠ 65536 := by
  have hlen : oversizedChar.value.length = 65536 := by
    rw [show oversizedChar.value = List.replicate 65536 1 from rfl, List.length_replicate]
  have hnv : ¬ violAuto oversizedChar := by
    intro hv
    have h2 : oversizedChar.value.length = 0 := hv.2
    rw [hlen] at h2
    exact absurd h2 (by norm_num)
  refine ⟨?_, hlen, by norm_num⟩
  rw [register_self_ok oversizedChar 5 hnv]
  simp only [registeredChar, addCharCall, hlen, Nat.mod_self]
  rfl

/-- C8 (amended): the add-characteristic call's `attr_max_len` and `attr_len`
are both the value-buffer length reduced modulo 2^16 (the `as u16` cast); in
particular they equal the buffer length whenever it is below 65536. -/
theorem attr_len_mod_65536 (c : Characteristic) (h : Nat) (hv : ¬ violAuto c) :
    c.register_self h =
      Except.ok ({ c with service_handle := some h },
        [Call.addChar h c.uuid c.permissions c.properties
          (c.value.length % 65536) (c.value.length % 65536) c.value]) ∧
    (c.value.length < 65536 → c.value.length % 65536 = c.value.length) :=
  ⟨register_self_ok c h hv, fun hlt => Nat.mod_eq_of_lt hlt⟩

/-- Witness for `attr_len_mod_65536` at `cEx`. -/
theorem attr_len_mod_65536_witness :
    ¬ violAuto cEx ∧
    cEx.register_self 9 =
      Except.ok ({ cEx with service_handle := some 9 },
        [Call.addChar 9 (BleUuid.uuid16 21) 1 2 1 1 [7]]) :=
  ⟨by decide, (attr_len_mod_65536 cEx 9 (by decide)).1⟩

/-- C10: on a service-created event carrying a failure status, the located
service's `handle` is still assigned the event's service handle (assignment
happens before the status check), while no stack call is issued. -/
theorem create_failure_still_sets_handle (p : Profile) (gattsIf status h : Nat)
    (u : BleUuid) (pre : List Service) (s : Service) (post : List Service)
    (hsplit : p.services = pre ++ s :: post)
    (hpre : ∀ x ∈ pre, x.uuid ≠ u) (hu : s.uuid = u) (hst : status ≠ ESP_GATT_OK) :
    p.gatts_event_handler gattsIf (GattsEvent.create status u h) =
      Except.ok ({ p with services := pre ++ ({ s with handle := some h }) :: post }, []) := by
  simp [Profile.gatts_event_handler, hsplit,
    profileCreate_fail status u h pre s post hpre hu hst]

/-- Witness for `create_failure_still_sets_handle` at `pEx`. -/
theorem create_failure_still_sets_handle_witness :
    pEx.services = [] ++ sEx :: [] ∧ sEx.uuid = BleUuid.uuid16 1 ∧
    (1 : Nat) ≠ ESP_GATT_OK ∧
    pEx.gatts_event_handler 3 (GattsEvent.create 1 (BleUuid.uuid16 1) 77) =
      Except.ok ({ pEx with services := [] ++ ({ sEx with handle := some 77 }) :: [] }, []) :=
  ⟨rfl, rfl, by decide,
    create_failure_still_sets_handle pEx 3 1 77 (BleUuid.uuid16 1) [] sEx []
      rfl (by simp) rfl (by decide)⟩

/-- C9: on a service-created event with success status, the dispatcher locates
the service by UUID equality (fatal abort when no service matches), sets its
`handle` to the event's service handle, and issues the start-service call
before any add-characteristic call, all from the same confirmation event. -/
theorem create_success_starts_then_populates (p : Profile) (gattsIf h : Nat)
    (u : BleUuid) :
    ((∀ x ∈ p.services, x.uuid ≠ u) →
      p.gatts_event_handler gattsIf (GattsEvent.create ESP_GATT_OK u h) =
        Except.error "Cannot find service described by received handle.") ∧
    (∀ pre s post, p.services = pre ++ s :: post →
      (∀ x ∈ pre, x.uuid ≠ u) → s.uuid = u →
      (∀ c ∈ s.characteristics, ¬ violAuto c) →
      p.gatts_event_handler gattsIf (GattsEvent.create ESP_GATT_OK u h) =
        Except.ok ({ p with services := pre ++
            ({ s with handle := some h,
                      characteristics := s.characteristics.map (registeredChar h) }) :: post },
          Call.startService h :: s.characteristics.map (addCharCall h))) := by
  constructor
  · intro hnone
    simp [Profile.gatts_event_handler,
      profileCreate_notfound ESP_GATT_OK u h p.services hnone]
  · intro pre s post hsplit hpre hu hv
    simp [Profile.gatts_event_handler, hsplit,
      profileCreate_ok u h pre s post hpre hu hv]

/-- Witness for `create_success_starts_then_populates` at `pEx`: an unmatched
UUID aborts, the matched UUID starts then populates. -/
theorem create_success_starts_then_populates_witness :
    ((∀ x ∈ pEx.services, x.uuid ≠ BleUuid.uuid16 2) ∧
      pEx.gatts_event_handler 3 (GattsEvent.create ESP_GATT_OK (BleUuid.uuid16 2) 77) =
        Except.error "Cannot find service described by received handle.") ∧
    (sEx.uuid = BleUuid.uuid16 1 ∧ (∀ c ∈ sEx.characteristics, ¬ violAuto c) ∧
      pEx.gatts_event_handler 3 (GattsEvent.create ESP_GATT_OK (BleUuid.uuid16 1) 77) =
        Except.ok ({ pEx with services := [] ++
            ({ sEx with handle := some 77,
                        characteristics := sEx.characteristics.map (registeredChar 77) }) :: [] },
          Call.startService 77 :: sEx.characteristics.map (addCharCall 77))) := by
  refine ⟨⟨by decide, ?_⟩, rfl, by decide, ?_⟩
  · exact (create_success_starts_then_populates pEx 3 77 (BleUuid.uuid16 2)).1 (by decide)
  · exact (create_success_starts_then_populates pEx 3 77 (BleUuid.uuid16 1)).2
      [] sEx [] rfl (by simp) rfl (by decide)

/-- A service whose only characteristic is registered at attribute handle 42
and stores the value `[7]`. -/
def sReg : Service :=
  { uuid := BleUuid.uuid16 1, is_primary := true, handle := some 5,
    characteristics := [{ cEx with attribute_handle := some 42 }] }

/-- A registered profile owning `sReg`, on interface 3. -/
def pReg : Profile := { identifier := 100, interface := some 3, services := [sReg] }

/-- A server owning `pReg`, with device identity already configured. -/
def srvReg : GattServer :=
  { profiles := [pReg], advertisement_parameters := 11, advertisement_data := 22,
    name_set := true }

/-- C1: dispatching an attribute-read event for handle 42 — the attribute
handle of a characteristic whose stored value is `[7]` — issues exactly one
send-read-response call with success status, but its payload is the fixed
literal of the source (`len 1`, `offset 1`, a 600-byte all-zero buffer), not
the characteristic's value buffer; a read for an unmatched handle issues no
call. -/
theorem read_event_sends_stub_not_value :
    srvReg.gatts_event_handler 3 (GattsEvent.read 8 9 42) =
      Except.ok (srvReg, [Call.sendResponse 3 8 9 ESP_GATT_OK (stubRsp 42)]) ∧
    ({ cEx with attribute_handle := some 42 } : Characteristic).value = [7] ∧
    (stubRsp 42).value = List.replicate 600 0 ∧
    (stubRsp 42).value ≠ [7] ∧
    (stubRsp 42).len = 1 ∧ (stubRsp 42).offset = 1 ∧
    srvReg.gatts_event_handler 3 (GattsEvent.read 8 9 99) = Except.ok (srvReg, []) := by
  refine ⟨rfl, rfl, rfl, ?_, rfl, rfl, rfl⟩
  intro h
  have : (List.replicate 600 (0 : Nat)).length = ([7] : List Nat).length := by
    rw [show (stubRsp 42).value = List.replicate 600 0 from rfl] at h
    rw [h]
  rw [List.length_replicate] at this
  simp at this

/-! Device-identity configuration calls and where they can come from. -/

/-- Is this call a set-device-name call? -/
def isSetName : Call → Bool
  | Call.setDeviceName _ => true
  | _ => false

/-- Is this call a configure-advertising-payload call with the given
scan-response flag? -/
def isCfgAdv (b : Bool) : Call → Bool
  | Call.configAdvData sr _ => sr == b
  | _ => false

/-- Is this call part of the device-identity configuration triple? -/
def isCfgCall : Call → Bool
  | Call.setDeviceName _ => true
  | Call.configAdvData _ _ => true
  | _ => false

/-- No call in the list belongs to the device-identity triple. -/
def CfgFree (cs : List Call) : Prop := ∀ x ∈ cs, isCfgCall x = false

/-- Is this dispatched event a profile-registration confirmation with success
status? -/
def isSuccessReg : Nat × GattsEvent → Bool
  | (_, GattsEvent.reg status _) => status == ESP_GATT_OK
  | _ => false

lemma cfgFree_nil : CfgFree [] := fun x hx => absurd hx (List.not_mem_nil x)

lemma cfgFree_append {a b : List Call} (ha : CfgFree a) (hb : CfgFree b) :
    CfgFree (a ++ b) := by
  intro x hx
  rcases List.mem_append.1 hx with hx | hx
  · exact ha x hx
  · exact hb x hx

lemma cfgFree_descrRegCalls (h : Nat) (ds : List Descriptor) :
    CfgFree ((ds.map (fun d => d.register_self h)).flatten) := by
  intro x hx
  rcases List.mem_flatten.1 hx with ⟨l, hl, hxl⟩
  rcases List.mem_map.1 hl with ⟨d, _, rfl⟩
  simp only [Descriptor.register_self] at hxl
  rcases List.mem_singleton.1 hxl with rfl
  rfl

lemma cfgFree_registerDescriptorsAux (sh : Option Nat) (ds : List Descriptor)
    (cs : List Call) (h : registerDescriptorsAux sh ds = Except.ok cs) :
    CfgFree cs := by
  cases sh with
  | some hh =>
    rw [registerDescriptorsAux_some] at h
    injection h with h
    subst h
    exact cfgFree_descrRegCalls hh ds
  | none =>
    cases ds with
    | nil =>
      injection h with h
      subst h
      exact cfgFree_nil
    | cons d ds => exact Except.noConfusion h

lemma cfgFree_register_descriptors (c : Characteristic) (cs : List Call)
    (h : c.register_descriptors = Except.ok cs) : CfgFree cs :=
  cfgFree_registerDescriptorsAux c.service_handle c.descriptors cs h

lemma cfgFree_registerCharacteristicsAux (h : Nat) (cs0 cs' : List Characteristic)
    (calls : List Call)
    (he : registerCharacteristicsAux h cs0 = Except.ok (cs', calls)) :
    CfgFree calls := by
  induction cs0 generalizing cs' calls with
  | nil =>
    simp only [registerCharacteristicsAux, Except.ok.injEq, Prod.mk.injEq] at he
    obtain ⟨h1, h2⟩ := he
    subst h2
    exact cfgFree_nil
  | cons c rest ih =>
    by_cases hv : violAuto c
    · simp [registerCharacteristicsAux, register_self_err c h hv] at he
    · cases hrec : registerCharacteristicsAux h rest with
      | error er =>
        simp [registerCharacteristicsAux, register_self_ok c h hv, hrec] at he
      | ok pr =>
        obtain ⟨cs2, more⟩ := pr
        simp only [registerCharacteristicsAux, register_self_ok c h hv, hrec,
          Except.ok.injEq, Prod.mk.injEq] at he
        obtain ⟨h1, h2⟩ := he
        subst h2
        refine cfgFree_append ?_ (ih cs2 more hrec)
        intro x hx
        rcases List.mem_singleton.1 hx with rfl
        rfl

lemma cfgFree_register_characteristics (s : Service) (s' : Service)
    (calls : List Call) (h : s.register_characteristics = Except.ok (s', calls)) :
    CfgFree calls := by
  cases hh : s.handle with
  | none => simp [Service.register_characteristics, hh] at h
  | some v =>
    cases haux : registerCharacteristicsAux v s.characteristics with
    | error er => simp [Service.register_characteristics, hh, haux] at h
    | ok pr =>
      obtain ⟨cs2, more⟩ := pr
      simp only [Service.register_characteristics, hh, haux,
        Except.ok.injEq, Prod.mk.injEq] at h
      obtain ⟨h1, h2⟩ := h
      subst h2
      exact cfgFree_registerCharacteristicsAux v s.characteristics cs2 more haux

lemma cfgFree_register_services (p : Profile) (calls : List Call)
    (h : p.register_services = Except.ok calls) : CfgFree calls := by
  cases hi : p.interface with
  | none => simp [Profile.register_services, hi] at h
  | some i =>
    simp only [Profile.register_services, hi, Except.ok.injEq] at h
    subst h
    intro x hx
    rcases List.mem_flatten.1 hx with ⟨l, hl, hxl⟩
    rcases List.mem_map.1 hl with ⟨s, _, rfl⟩
    simp only [Service.register] at hxl
    rcases List.mem_singleton.1 hxl with rfl
    rfl

lemma cfgFree_profileCreate (status : Nat) (u : BleUuid) (h : Nat)
    (services services' : List Service) (calls : List Call)
    (he : profileCreate status u h services = Except.ok (services', calls)) :
    CfgFree calls := by
  induction services generalizing services' calls with
  | nil => exact Except.noConfusion he
  | cons s rest ih =>
    by_cases hsu : s.uuid = u
    · by_cases hst : status ≠ ESP_GATT_OK
      · simp only [profileCreate, if_pos hsu, if_pos hst,
          Except.ok.injEq, Prod.mk.injEq] at he
        obtain ⟨h1, h2⟩ := he
        subst h2
        exact cfgFree_nil
      · cases hreg : ({ s with handle := some h } : Service).register_characteristics with
        | error er =>
          simp [profileCreate, if_pos hsu, if_neg hst, hreg] at he
        | ok pr =>
          obtain ⟨s2, more⟩ := pr
          simp only [profileCreate, if_pos hsu, if_neg hst, hreg,
            Except.ok.injEq, Prod.mk.injEq] at he
          obtain ⟨h1, h2⟩ := he
          subst h2
          intro x hx
          rcases List.mem_cons.1 hx with rfl | hx
          · rfl
          · exact cfgFree_register_characteristics _ s2 more hreg x hx
    · cases hrec : profileCreate status u h rest with
      | error er => simp [profileCreate, if_neg hsu, hrec] at he
      | ok pr =>
        obtain ⟨rest', more⟩ := pr
        simp only [profileCreate, if_neg hsu, hrec,
          Except.ok.injEq, Prod.mk.injEq] at he
        obtain ⟨h1, h2⟩ := he
        subst h2
        exact ih rest' more hrec

lemma cfgFree_addCharChars (status : Nat) (u : BleUuid) (ah : Nat)
    (cs0 cs' : List Characteristic) (calls : List Call)
    (he : addCharChars status u ah cs0 = some (Except.ok (cs', calls))) :
    CfgFree calls := by
  induction cs0 generalizing cs' calls with
  | nil => exact Option.noConfusion he
  | cons c rest ih =>
    by_cases hcu : c.uuid = u
    · by_cases hst : status ≠ ESP_GATT_OK
      · simp only [addCharChars, if_pos hcu, if_pos hst, Option.some.injEq,
          Except.ok.injEq, Prod.mk.injEq] at he
        obtain ⟨h1, h2⟩ := he
        subst h2
        exact cfgFree_nil
      · cases hreg : ({ c with attribute_handle := some ah } : Characteristic).register_descriptors with
        | error er =>
          simp [addCharChars, if_pos hcu, if_neg hst, hreg] at he
        | ok more =>
          simp only [addCharChars, if_pos hcu, if_neg hst, hreg, Option.some.injEq,
            Except.ok.injEq, Prod.mk.injEq] at he
          obtain ⟨h1, h2⟩ := he
          subst h2
          exact cfgFree_register_descriptors _ more hreg
    · cases hrec : addCharChars status u ah rest with
      | none => simp [addCharChars, if_neg hcu, hrec] at he
      | some r =>
        cases r with
        | error er => simp [addCharChars, if_neg hcu, hrec] at he
        | ok pr =>
          obtain ⟨cs2, more⟩ := pr
          simp only [addCharChars, if_neg hcu, hrec, Option.some.injEq,
            Except.ok.injEq, Prod.mk.injEq] at he
          obtain ⟨h1, h2⟩ := he
          subst h2
          exact ih cs2 more hrec

lemma cfgFree_profileAddChar (status : Nat) (u : BleUuid) (ah : Nat)
    (services services' : List Service) (calls : List Call)
    (he : profileAddChar status u ah services = Except.ok (services', calls)) :
    CfgFree calls := by
  induction services generalizing services' calls with
  | nil => exact Except.noConfusion he
  | cons s rest ih =>
    cases hs : addCharChars status u ah s.characteristics with
    | some r =>
      cases r with
      | error er => simp [profileAddChar, hs] at he
      | ok pr =>
        obtain ⟨cs2, more⟩ := pr
        simp only [profileAddChar, hs, Except.ok.injEq, Prod.mk.injEq] at he
        obtain ⟨h1, h2⟩ := he
        subst h2
        exact cfgFree_addCharChars status u ah s.characteristics cs2 more hs
    | none =>
      cases hrec : profileAddChar status u ah rest with
      | error er => simp [profileAddChar, hs, hrec] at he
      | ok pr =>
        obtain ⟨rest', more⟩ := pr
        simp only [profileAddChar, hs, hrec, Except.ok.injEq, Prod.mk.injEq] at he
        obtain ⟨h1, h2⟩ := he
        subst h2
        exact ih rest' more hrec

lemma cfgFree_readRespCalls (gattsIf connId transId handle : Nat)
    (services : List Service) :
    CfgFree (readRespCalls gattsIf connId transId handle services) := by
  intro x hx
  unfold readRespCalls at hx
  rcases List.mem_flatten.1 hx with ⟨l, hl, hxl⟩
  rcases List.mem_map.1 hl with ⟨s, _, rfl⟩
  rcases List.mem_flatten.1 hxl with ⟨l2, hl2, hxl2⟩
  rcases List.mem_map.1 hl2 with ⟨c, _, rfl⟩
  by_cases hc : c.attribute_handle = some handle
  · rw [if_pos hc] at hxl2
    rcases List.mem_singleton.1 hxl2 with rfl
    rfl
  · rw [if_neg hc] at hxl2
    exact absurd hxl2 (List.not_mem_nil x)

lemma cfgFree_profile_handler (p : Profile) (gattsIf : Nat) (e : GattsEvent)
    (p' : Profile) (calls : List Call)
    (h : p.gatts_event_handler gattsIf e = Except.ok (p', calls)) :
    CfgFree calls := by
  cases e with
  | reg status appId =>
    by_cases hst : status ≠ ESP_GATT_OK
    · simp only [Profile.gatts_event_handler, if_pos hst,
        Except.ok.injEq, Prod.mk.injEq] at h
      obtain ⟨h1, h2⟩ := h
      subst h2
      exact cfgFree_nil
    · cases hi : p.interface with
      | none => simp [Profile.gatts_event_handler, if_neg hst, hi] at h
      | some i =>
        cases hr : p.register_services with
        | error er => simp [Profile.gatts_event_handler, if_neg hst, hi, hr] at h
        | ok cs =>
          simp only [Profile.gatts_event_handler, if_neg hst, hi, hr,
            Except.ok.injEq, Prod.mk.injEq] at h
          obtain ⟨h1, h2⟩ := h
          subst h2
          exact cfgFree_register_services p cs hr
  | create status u hh =>
    cases hc : profileCreate status u hh p.services with
    | error er => simp [Profile.gatts_event_handler, hc] at h
    | ok pr =>
      obtain ⟨ss, cs⟩ := pr
      simp only [Profile.gatts_event_handler, hc, Except.ok.injEq, Prod.mk.injEq] at h
      obtain ⟨h1, h2⟩ := h
      subst h2
      exact cfgFree_profileCreate status u hh p.services ss cs hc
  | start status hh =>
    cases hc : profileStart hh p.services with
    | error er => simp [Profile.gatts_event_handler, hc] at h
    | ok uu =>
      simp only [Profile.gatts_event_handler, hc, Except.ok.injEq, Prod.mk.injEq] at h
      obtain ⟨h1, h2⟩ := h
      subst h2
      exact cfgFree_nil
  | addChar status u ah =>
    cases hc : profileAddChar status u ah p.services with
    | error er => simp [Profile.gatts_event_handler, hc] at h
    | ok pr =>
      obtain ⟨ss, cs⟩ := pr
      simp only [Profile.gatts_event_handler, hc, Except.ok.injEq, Prod.mk.injEq] at h
      obtain ⟨h1, h2⟩ := h
      subst h2
      exact cfgFree_profileAddChar status u ah p.services ss cs hc
  | addCharDescr status u ah =>
    cases hc : profileAddDescr status u ah p.services with
    | error er => simp [Profile.gatts_event_handler, hc] at h
    | ok ss =>
      simp only [Profile.gatts_event_handler, hc, Except.ok.injEq, Prod.mk.injEq] at h
      obtain ⟨h1, h2⟩ := h
      subst h2
      exact cfgFree_nil
  | read connId transId handle =>
    simp only [Profile.gatts_event_handler, Except.ok.injEq, Prod.mk.injEq] at h
    obtain ⟨h1, h2⟩ := h
    subst h2
    exact cfgFree_readRespCalls gattsIf connId transId handle p.services
  | connect bda =>
    simp only [Profile.gatts_event_handler, Except.ok.injEq, Prod.mk.injEq] at h
    obtain ⟨h1, h2⟩ := h
    subst h2
    exact cfgFree_nil
  | disconnect bda =>
    simp only [Profile.gatts_event_handler, Except.ok.injEq, Prod.mk.injEq] at h
    obtain ⟨h1, h2⟩ := h
    subst h2
    exact cfgFree_nil
  | mtu m =>
    simp only [Profile.gatts_event_handler, Except.ok.injEq, Prod.mk.injEq] at h
    obtain ⟨h1, h2⟩ := h
    subst h2
    exact cfgFree_nil
  | other code =>
    simp only [Profile.gatts_event_handler, Except.ok.injEq, Prod.mk.injEq] at h
    obtain ⟨h1, h2⟩ := h
    subst h2
    exact cfgFree_nil

lemma cfgFree_dispatchProfiles (gattsIf : Nat) (e : GattsEvent)
    (pl pl' : List Profile) (calls : List Call)
    (h : dispatchProfiles gattsIf e pl = Except.ok (pl', calls)) :
    CfgFree calls := by
  induction pl generalizing pl' calls with
  | nil =>
    simp only [dispatchProfiles, Except.ok.injEq, Prod.mk.injEq] at h
    obtain ⟨h1, h2⟩ := h
    subst h2
    exact cfgFree_nil
  | cons p ps ih =>
    by_cases hi : p.interface = some gattsIf
    · cases hp : p.gatts_event_handler gattsIf e with
      | error er => simp [dispatchProfiles, if_pos hi, hp] at h
      | ok pr =>
        obtain ⟨p', cs1⟩ := pr
        cases hrec : dispatchProfiles gattsIf e ps with
        | error er => simp [dispatchProfiles, if_pos hi, hp, hrec] at h
        | ok pr2 =>
          obtain ⟨ps', cs2⟩ := pr2
          simp only [dispatchProfiles, if_pos hi, hp, hrec,
            Except.ok.injEq, Prod.mk.injEq] at h
          obtain ⟨h1, h2⟩ := h
          subst h2
          exact cfgFree_append (cfgFree_profile_handler p gattsIf e p' cs1 hp)
            (ih ps' cs2 hrec)
    · cases hrec : dispatchProfiles gattsIf e ps with
      | error er => simp [dispatchProfiles, if_neg hi, hrec] at h
      | ok pr2 =>
        obtain ⟨ps', cs2⟩ := pr2
        simp only [dispatchProfiles, if_neg hi, hrec,
          Except.ok.injEq, Prod.mk.injEq] at h
        obtain ⟨h1, h2⟩ := h
        subst h2
        exact cfgFree_append cfgFree_nil (ih ps' cs2 hrec)

lemma cfgFree_counts (cs : List Call) (h : CfgFree cs) :
    cs.countP isSetName = 0 ∧ cs.countP (isCfgAdv false) = 0 ∧
      cs.countP (isCfgAdv true) = 0 := by
  refine ⟨List.countP_eq_zero.2 ?_, List.countP_eq_zero.2 ?_, List.countP_eq_zero.2 ?_⟩
  all_goals intro a ha
  all_goals have hc := h a ha
  all_goals cases a <;> simp_all [isCfgCall, isSetName, isCfgAdv]

lemma gatts_step_dispatch_arm (srv : GattServer) (gif : Nat) (e : GattsEvent)
    (srv' : GattServer) (calls : List Call)
    (harm : srv.gatts_event_handler gif e =
      (match dispatchProfiles gif e srv.profiles with
       | Except.error er => Except.error er
       | Except.ok (ps, cs) => Except.ok ({ srv with profiles := ps }, cs)))
    (h : srv.gatts_event_handler gif e = Except.ok (srv', calls)) :
    CfgFree calls ∧ srv'.name_set = srv.name_set := by
  rw [harm] at h
  cases hd : dispatchProfiles gif e srv.profiles with
  | error er => rw [hd] at h; exact Except.noConfusion h
  | ok pr =>
    obtain ⟨ps, cs⟩ := pr
    rw [hd] at h
    injection h with h
    injection h with h1 h2
    subst h2
    refine ⟨cfgFree_dispatchProfiles gif e srv.profiles ps cs hd, ?_⟩
    rw [← h1]

lemma gatts_step_cfg (srv : GattServer) (gif : Nat) (e : GattsEvent)
    (srv' : GattServer) (calls : List Call)
    (h : srv.gatts_event_handler gif e = Except.ok (srv', calls)) :
    (calls.countP isSetName =
      if srv.name_set = false ∧ isSuccessReg (gif, e) = true then 1 else 0) ∧
    (calls.countP (isCfgAdv false) =
      if srv.name_set = false ∧ isSuccessReg (gif, e) = true then 1 else 0) ∧
    (calls.countP (isCfgAdv true) =
      if srv.name_set = false ∧ isSuccessReg (gif, e) = true then 1 else 0) ∧
    srv'.name_set = (srv.name_set || isSuccessReg (gif, e)) := by
  cases e with
  | connect bda =>
    simp only [GattServer.gatts_event_handler, Except.ok.injEq, Prod.mk.injEq] at h
    obtain ⟨h1, h2⟩ := h
    subst h2
    subst h1
    simp [isSuccessReg]
  | disconnect bda =>
    simp only [GattServer.gatts_event_handler, Except.ok.injEq, Prod.mk.injEq] at h
    obtain ⟨h1, h2⟩ := h
    subst h2
    subst h1
    simp [isSuccessReg, isSetName, isCfgAdv, List.countP_cons]
  | mtu m =>
    simp only [GattServer.gatts_event_handler, Except.ok.injEq, Prod.mk.injEq] at h
    obtain ⟨h1, h2⟩ := h
    subst h2
    subst h1
    simp [isSuccessReg]
  | create status u hh =>
    obtain ⟨hfree, hns⟩ := gatts_step_dispatch_arm srv gif _ srv' calls rfl h
    obtain ⟨q1, q2, q3⟩ := cfgFree_counts calls hfree
    simp [isSuccessReg, q1, q2, q3, hns]
  | start status hh =>
    obtain ⟨hfree, hns⟩ := gatts_step_dispatch_arm srv gif _ srv' calls rfl h
    obtain ⟨q1, q2, q3⟩ := cfgFree_counts calls hfree
    simp [isSuccessReg, q1, q2, q3, hns]
  | addChar status u ah =>
    obtain ⟨hfree, hns⟩ := gatts_step_dispatch_arm srv gif _ srv' calls rfl h
    obtain ⟨q1, q2, q3⟩ := cfgFree_counts calls hfree
    simp [isSuccessReg, q1, q2, q3, hns]
  | addCharDescr status u ah =>
    obtain ⟨hfree, hns⟩ := gatts_step_dispatch_arm srv gif _ srv' calls rfl h
    obtain ⟨q1, q2, q3⟩ := cfgFree_counts calls hfree
    simp [isSuccessReg, q1, q2, q3, hns]
  | read connId transId handle =>
    obtain ⟨hfree, hns⟩ := gatts_step_dispatch_arm srv gif _ srv' calls rfl h
    obtain ⟨q1, q2, q3⟩ := cfgFree_counts calls hfree
    simp [isSuccessReg, q1, q2, q3, hns]
  | other code =>
    obtain ⟨hfree, hns⟩ := gatts_step_dispatch_arm srv gif _ srv' calls rfl h
    obtain ⟨q1, q2, q3⟩ := cfgFree_counts calls hfree
    simp [isSuccessReg, q1, q2, q3, hns]
  | reg status appId =>
    by_cases hst : status = ESP_GATT_OK
    · cases hsp : setProfileInterface appId gif srv.profiles with
      | error er => simp [GattServer.gatts_event_handler, if_pos hst, hsp] at h
      | ok profiles' =>
        by_cases hns : srv.name_set = true
        · cases hd : dispatchProfiles gif (GattsEvent.reg status appId) profiles' with
          | error er =>
            simp [GattServer.gatts_event_handler, if_pos hst, hsp, hns, hd] at h
          | ok pr =>
            obtain ⟨ps, cs⟩ := pr
            simp only [GattServer.gatts_event_handler, if_pos hst, hsp, hns, hd,
              if_true, Except.ok.injEq, Prod.mk.injEq] at h
            obtain ⟨h1, h2⟩ := h
            subst h2
            subst h1
            obtain ⟨q1, q2, q3⟩ := cfgFree_counts cs
              (cfgFree_dispatchProfiles gif _ profiles' ps cs hd)
            simp [isSuccessReg, hst, q1, q2, q3, hns]
        · cases hd : dispatchProfiles gif (GattsEvent.reg status appId) profiles' with
          | error er =>
            simp [GattServer.gatts_event_handler, if_pos hst, hsp, hns, hd] at h
          | ok pr =>
            obtain ⟨ps, cs⟩ := pr
            simp only [GattServer.gatts_event_handler, if_pos hst, hsp, hns, hd,
              Bool.false_eq_true, if_false, Except.ok.injEq, Prod.mk.injEq] at h
            obtain ⟨h1, h2⟩ := h
            subst h2
            subst h1
            obtain ⟨q1, q2, q3⟩ := cfgFree_counts cs
              (cfgFree_dispatchProfiles gif _ profiles' ps cs hd)
            have hnsf : srv.name_set = false := by
              cases hb : srv.name_set
              · rfl
              · exact absurd hb hns
            simp [isSuccessReg, hst, List.countP_cons, isSetName, isCfgAdv,
              q1, q2, q3, hnsf]
    · cases hd : dispatchProfiles gif (GattsEvent.reg status appId) srv.profiles with
      | error er =>
        simp [GattServer.gatts_event_handler, if_neg hst, hd] at h
      | ok pr =>
        obtain ⟨ps, cs⟩ := pr
        simp only [GattServer.gatts_event_handler, if_neg hst, hd,
          Except.ok.injEq, Prod.mk.injEq] at h
        obtain ⟨h1, h2⟩ := h
        subst h2
        subst h1
        obtain ⟨q1, q2, q3⟩ := cfgFree_counts cs
          (cfgFree_dispatchProfiles gif _ srv.profiles ps cs hd)
        simp [isSuccessReg, hst, q1, q2, q3]

lemma runEvents_cfg (t : List (Nat × GattsEvent)) :
    ∀ srv srv' calls, runEvents srv t = Except.ok (srv', calls) →
    (calls.countP isSetName =
      if srv.name_set = false ∧ t.any isSuccessReg = true then 1 else 0) ∧
    (calls.countP (isCfgAdv false) =
      if srv.name_set = false ∧ t.any isSuccessReg = true then 1 else 0) ∧
    (calls.countP (isCfgAdv true) =
      if srv.name_set = false ∧ t.any isSuccessReg = true then 1 else 0) ∧
    srv'.name_set = (srv.name_set || t.any isSuccessReg) := by
  induction t with
  | nil =>
    intro srv srv' calls h
    simp only [runEvents, Except.ok.injEq, Prod.mk.injEq] at h
    obtain ⟨h1, h2⟩ := h
    subst h2
    subst h1
    simp
  | cons p rest ih =>
    obtain ⟨gif, e⟩ := p
    intro srv srv' calls h
    cases hs : srv.gatts_event_handler gif e with
    | error er => simp [runEvents, hs] at h
    | ok pr =>
      obtain ⟨srv1, c1⟩ := pr
      cases hr : runEvents srv1 rest with
      | error er => simp [runEvents, hs, hr] at h
      | ok pr2 =>
        obtain ⟨srv2, c2⟩ := pr2
        simp only [runEvents, hs, hr, Except.ok.injEq, Prod.mk.injEq] at h
        obtain ⟨h1, h2⟩ := h
        subst h1
        subst h2
        obtain ⟨s1, s2, s3, s4⟩ := gatts_step_cfg srv gif e srv1 c1 hs
        obtain ⟨r1, r2, r3, r4⟩ := ih srv1 srv2 c2 hr
        rw [s4] at r1 r2 r3 r4
        refine ⟨?_, ?_, ?_, ?_⟩
        · rw [List.countP_append, s1, r1, List.any_cons]
          cases srv.name_set <;> cases isSuccessReg (gif, e) <;>
            cases rest.any isSuccessReg <;> simp
        · rw [List.countP_append, s2, r2, List.any_cons]
          cases srv.name_set <;> cases isSuccessReg (gif, e) <;>
            cases rest.any isSuccessReg <;> simp
        · rw [List.countP_append, s3, r3, List.any_cons]
          cases srv.name_set <;> cases isSuccessReg (gif, e) <;>
            cases rest.any isSuccessReg <;> simp
        · rw [r4, List.any_cons]
          cases srv.name_set <;> cases isSuccessReg (gif, e) <;>
            cases rest.any isSuccessReg <;> simp

/-- C3: across any dispatched event sequence starting with the name-configured
flag unset, each element of the device-identity configuration triple
(set-device-name, configure-advertising-payload, configure-scan-response
payload) is issued exactly once when some profile-registration event with
success status occurs — on that first confirmation, which also flips the flag
— and zero times otherwise, no matter how many further profiles register. -/
theorem device_identity_configured_once (srv : GattServer)
    (t : List (Nat × GattsEvent)) (srv' : GattServer) (calls : List Call)
    (h : runEvents srv t = Except.ok (srv', calls)) (hns : srv.name_set = false) :
    calls.countP isSetName = (if t.any isSuccessReg = true then 1 else 0) ∧
    calls.countP (isCfgAdv false) = (if t.any isSuccessReg = true then 1 else 0) ∧
    calls.countP (isCfgAdv true) = (if t.any isSuccessReg = true then 1 else 0) ∧
    srv'.name_set = t.any isSuccessReg := by
  obtain ⟨h1, h2, h3, h4⟩ := runEvents_cfg t srv srv' calls h
  rw [hns] at h1 h2 h3 h4
  simp only [Bool.false_or] at h4
  refine ⟨?_, ?_, ?_, h4⟩
  · rw [h1]; cases hA : t.any isSuccessReg <;> simp [hA]
  · rw [h2]; cases hA : t.any isSuccessReg <;> simp [hA]
  · rw [h3]; cases hA : t.any isSuccessReg <;> simp [hA]

/-- A three-profile server with the name-configured flag unset. -/
def srvW : GattServer :=
  { profiles := [{ identifier := 100, interface := none, services := [] },
                 { identifier := 200, interface := none, services := [] },
                 { identifier := 300, interface := none, services := [] }],
    advertisement_parameters := 11, advertisement_data := 22, name_set := false }

/-- Three successful profile-registration confirmations. -/
def traceW : List (Nat × GattsEvent) :=
  [(1, GattsEvent.reg 0 100), (2, GattsEvent.reg 0 200), (3, GattsEvent.reg 0 300)]

/-- The server state after `traceW`. -/
def srvW' : GattServer :=
  { profiles := [{ identifier := 100, interface := some 1, services := [] },
                 { identifier := 200, interface := some 2, services := [] },
                 { identifier := 300, interface := some 3, services := [] }],
    advertisement_parameters := 11, advertisement_data := 22, name_set := true }

/-- The calls emitted along `traceW`: the configuration triple, once. -/
def callsW : List Call :=
  [Call.setDeviceName "ESP32-GATT-Server",
   Call.configAdvData false 22, Call.configAdvData true 22]

/-- Witness for `device_identity_configured_once`: three profiles register,
the triple is observed exactly once. -/
theorem device_identity_configured_once_witness :
    runEvents srvW traceW = Except.ok (srvW', callsW) ∧ srvW.name_set = false ∧
    callsW.countP isSetName = 1 ∧ callsW.countP (isCfgAdv false) = 1 ∧
    callsW.countP (isCfgAdv true) = 1 ∧ srvW'.name_set = true := by
  have hrun : runEvents srvW traceW = Except.ok (srvW', callsW) := rfl
  obtain ⟨c1, c2, c3, c4⟩ :=
    device_identity_configured_once srvW traceW srvW' callsW hrun rfl
  exact ⟨hrun, rfl, c1, c2, c3, c4⟩

/-! Shape lemmas: full characterizations of the mutating event walks. -/

lemma registerCharacteristicsAux_shape (h : Nat) (cs cs' : List Characteristic)
    (calls : List Call)
    (he : registerCharacteristicsAux h cs = Except.ok (cs', calls)) :
    cs' = cs.map (registeredChar h) ∧ calls = cs.map (addCharCall h) := by
  induction cs generalizing cs' calls with
  | nil =>
    simp only [registerCharacteristicsAux, Except.ok.injEq, Prod.mk.injEq] at he
    obtain ⟨h1, h2⟩ := he
    subst h1
    subst h2
    simp
  | cons c rest ih =>
    by_cases hv : violAuto c
    · simp [registerCharacteristicsAux, register_self_err c h hv] at he
    · cases hrec : registerCharacteristicsAux h rest with
      | error er =>
        simp [registerCharacteristicsAux, register_self_ok c h hv, hrec] at he
      | ok pr =>
        obtain ⟨cs2, more⟩ := pr
        simp only [registerCharacteristicsAux, register_self_ok c h hv, hrec,
          Except.ok.injEq, Prod.mk.injEq] at he
        obtain ⟨h1, h2⟩ := he
        obtain ⟨e1, e2⟩ := ih cs2 more hrec
        subst h1
        subst h2
        subst e1
        subst e2
        simp [List.map_cons]

lemma register_characteristics_shape (s : Service) (s' : Service) (calls : List Call)
    (he : s.register_characteristics = Except.ok (s', calls)) :
    ∃ v, s.handle = some v ∧
      s' = { s with characteristics := s.characteristics.map (registeredChar v) } ∧
      calls = s.characteristics.map (addCharCall v) := by
  cases hh : s.handle with
  | none => simp [Service.register_characteristics, hh] at he
  | some v =>
    cases haux : registerCharacteristicsAux v s.characteristics with
    | error er => simp [Service.register_characteristics, hh, haux] at he
    | ok pr =>
      obtain ⟨cs2, more⟩ := pr
      simp only [Service.register_characteristics, hh, haux,
        Except.ok.injEq, Prod.mk.injEq] at he
      obtain ⟨h1, h2⟩ := he
      obtain ⟨e1, e2⟩ := registerCharacteristicsAux_shape v s.characteristics cs2 more haux
      subst h2
      subst e1
      subst e2
      exact ⟨v, rfl, h1.symm, rfl⟩

lemma profileCreate_shape (status : Nat) (u : BleUuid) (h : Nat)
    (services services' : List Service) (calls : List Call)
    (he : profileCreate status u h services = Except.ok (services', calls)) :
    ∃ pre s post, services = pre ++ s :: post ∧ (∀ x ∈ pre, x.uuid ≠ u) ∧ s.uuid = u ∧
      ((status ≠ ESP_GATT_OK ∧
        services' = pre ++ ({ s with handle := some h }) :: post ∧ calls = []) ∨
       (status = ESP_GATT_OK ∧
        services' = pre ++ ({ s with
          handle := some h
          characteristics := s.characteristics.map (registeredChar h) }) :: post ∧
        calls = Call.startService h :: s.characteristics.map (addCharCall h))) := by
  induction services generalizing services' calls with
  | nil => exact Except.noConfusion he
  | cons s rest ih =>
    by_cases hsu : s.uuid = u
    · by_cases hst : status ≠ ESP_GATT_OK
      · simp only [profileCreate, if_pos hsu, if_pos hst,
          Except.ok.injEq, Prod.mk.injEq] at he
        obtain ⟨h1, h2⟩ := he
        subst h1
        subst h2
        exact ⟨[], s, rest, rfl, by simp, hsu, Or.inl ⟨hst, rfl, rfl⟩⟩
      · cases hreg : ({ s with handle := some h } : Service).register_characteristics with
        | error er =>
          simp [profileCreate, if_pos hsu, if_neg hst, hreg] at he
        | ok pr =>
          obtain ⟨s2, more⟩ := pr
          simp only [profileCreate, if_pos hsu, if_neg hst, hreg,
            Except.ok.injEq, Prod.mk.injEq] at he
          obtain ⟨h1, h2⟩ := he
          subst h1
          subst h2
          obtain ⟨v, hv, hs2, hmore⟩ :=
            register_characteristics_shape { s with handle := some h } s2 more hreg
          have hv' : v = h := by
            injection hv with hv
            exact hv.symm
          subst hv'
          subst hs2
          subst hmore
          push_neg at hst
          exact ⟨[], s, rest, rfl, by simp, hsu, Or.inr ⟨hst, rfl, rfl⟩⟩
    · cases hrec : profileCreate status u h rest with
      | error er => simp [profileCreate, if_neg hsu, hrec] at he
      | ok pr =>
        obtain ⟨rest', more⟩ := pr
        simp only [profileCreate, if_neg hsu, hrec,
          Except.ok.injEq, Prod.mk.injEq] at he
        obtain ⟨h1, h2⟩ := he
        subst h1
        subst h2
        obtain ⟨pre, s0, post, hsplit, hpre, hs0, hcase⟩ := ih rest' more hrec
        subst hsplit
        refine ⟨s :: pre, s0, post, rfl, ?_, hs0, ?_⟩
        · intro x hx
          rcases List.mem_cons.1 hx with rfl | hx
          · exact hsu
          · exact hpre x hx
        · rcases hcase with ⟨ha, hb, hc⟩ | ⟨ha, hb, hc⟩
          · subst hb; subst hc; exact Or.inl ⟨ha, rfl, rfl⟩
          · subst hb; subst hc; exact Or.inr ⟨ha, rfl, rfl⟩

lemma addCharChars_shape (status : Nat) (u : BleUuid) (ah : Nat)
    (cs cs' : List Characteristic) (calls : List Call)
    (he : addCharChars status u ah cs = some (Except.ok (cs', calls))) :
    ∃ cpre c cpost, cs = cpre ++ c :: cpost ∧ (∀ y ∈ cpre, y.uuid ≠ u) ∧ c.uuid = u ∧
      ((status ≠ ESP_GATT_OK ∧ cs' = cpre ++ c :: cpost ∧ calls = []) ∨
       (status = ESP_GATT_OK ∧
        cs' = cpre ++ ({ c with attribute_handle := some ah }) :: cpost ∧
        ({ c with attribute_handle := some ah } : Characteristic).register_descriptors =
          Except.ok calls)) := by
  induction cs generalizing cs' calls with
  | nil => exact Option.noConfusion he
  | cons c rest ih =>
    by_cases hcu : c.uuid = u
    · by_cases hst : status ≠ ESP_GATT_OK
      · simp only [addCharChars, if_pos hcu, if_pos hst, Option.some.injEq,
          Except.ok.injEq, Prod.mk.injEq] at he
        obtain ⟨h1, h2⟩ := he
        subst h1
        subst h2
        exact ⟨[], c, rest, rfl, by simp, hcu, Or.inl ⟨hst, rfl, rfl⟩⟩
      · cases hreg : ({ c with attribute_handle := some ah } : Characteristic).register_descriptors with
        | error er =>
          simp [addCharChars, if_pos hcu, if_neg hst, hreg] at he
        | ok more =>
          simp only [addCharChars, if_pos hcu, if_neg hst, hreg, Option.some.injEq,
            Except.ok.injEq, Prod.mk.injEq] at he
          obtain ⟨h1, h2⟩ := he
          subst h1
          subst h2
          push_neg at hst
          exact ⟨[], c, rest, rfl, by simp, hcu, Or.inr ⟨hst, rfl, hreg⟩⟩
    · cases hrec : addCharChars status u ah rest with
      | none => simp [addCharChars, if_neg hcu, hrec] at he
      | some r =>
        cases r with
        | error er => simp [addCharChars, if_neg hcu, hrec] at he
        | ok pr =>
          obtain ⟨cs2, more⟩ := pr
          simp only [addCharChars, if_neg hcu, hrec, Option.some.injEq,
            Except.ok.injEq, Prod.mk.injEq] at he
          obtain ⟨h1, h2⟩ := he
          subst h1
          subst h2
          obtain ⟨cpre, c0, cpost, hsplit, hpre, hc0, hcase⟩ := ih cs2 more hrec
          subst hsplit
          refine ⟨c :: cpre, c0, cpost, rfl, ?_, hc0, ?_⟩
          · intro y hy
            rcases List.mem_cons.1 hy with rfl | hy
            · exact hcu
            · exact hpre y hy
          · rcases hcase with ⟨ha, hb, hc⟩ | ⟨ha, hb, hc⟩
            · subst hb; subst hc; exact Or.inl ⟨ha, rfl, rfl⟩
            · subst hb; exact Or.inr ⟨ha, rfl, hc⟩

lemma addCharChars_none (status : Nat) (u : BleUuid) (ah : Nat)
    (cs : List Characteristic) (hnone : ∀ y ∈ cs, y.uuid ≠ u) :
    addCharChars status u ah cs = none := by
  induction cs with
  | nil => rfl
  | cons c rest ih =>
    have hc : c.uuid ≠ u := hnone c (List.mem_cons_self c rest)
    have hrest : ∀ y ∈ rest, y.uuid ≠ u := fun y hy => hnone y (List.mem_cons_of_mem c hy)
    simp [addCharChars, hc, ih hrest]

lemma addCharChars_eq_none (status : Nat) (u : BleUuid) (ah : Nat)
    (cs : List Characteristic) (h : addCharChars status u ah cs = none) :
    ∀ y ∈ cs, y.uuid ≠ u := by
  induction cs with
  | nil => intro y hy; exact absurd hy (List.not_mem_nil y)
  | cons c rest ih =>
    by_cases hcu : c.uuid = u
    · simp [addCharChars, hcu] at h
    · cases hrec : addCharChars status u ah rest with
      | none =>
        intro y hy
        rcases List.mem_cons.1 hy with rfl | hy
        · exact hcu
        · exact ih hrec y hy
      | some r =>
        cases r with
        | error er => simp [addCharChars, hcu, hrec] at h
        | ok pr => simp [addCharChars, hcu, hrec] at h

lemma profileAddChar_shape (status : Nat) (u : BleUuid) (ah : Nat)
    (services services' : List Service) (calls : List Call)
    (he : profileAddChar status u ah services = Except.ok (services', calls)) :
    ∃ spre s spost cpre c cpost,
      services = spre ++ s :: spost ∧
      s.characteristics = cpre ++ c :: cpost ∧
      (∀ x ∈ spre, ∀ y ∈ x.characteristics, y.uuid ≠ u) ∧
      (∀ y ∈ cpre, y.uuid ≠ u) ∧ c.uuid = u ∧
      ((status ≠ ESP_GATT_OK ∧ services' = services ∧ calls = []) ∨
       (status = ESP_GATT_OK ∧
        services' = spre ++ ({ s with characteristics :=
          cpre ++ ({ c with attribute_handle := some ah }) :: cpost }) :: spost ∧
        ({ c with attribute_handle := some ah } : Characteristic).register_descriptors =
          Except.ok calls)) := by
  induction services generalizing services' calls with
  | nil => exact Except.noConfusion he
  | cons s rest ih =>
    cases hs : addCharChars status u ah s.characteristics with
    | some r =>
      cases r with
      | error er => simp [profileAddChar, hs] at he
      | ok pr =>
        obtain ⟨cs2, more⟩ := pr
        simp only [profileAddChar, hs, Except.ok.injEq, Prod.mk.injEq] at he
        obtain ⟨h1, h2⟩ := he
        subst h1
        subst h2
        obtain ⟨cpre, c, cpost, hsplit, hcpre, hc, hcase⟩ :=
          addCharChars_shape status u ah s.characteristics cs2 more hs
        rcases hcase with ⟨ha, hb, hcalls⟩ | ⟨ha, hb, hreg⟩
        · subst hb
          subst hcalls
          refine ⟨[], s, rest, cpre, c, cpost, rfl, hsplit, ?_, hcpre, hc,
            Or.inl ⟨ha, ?_, rfl⟩⟩
          · simp
          · rw [← hsplit]
        · subst hb
          exact ⟨[], s, rest, cpre, c, cpost, rfl, hsplit, by simp, hcpre, hc,
            Or.inr ⟨ha, rfl, hreg⟩⟩
    | none =>
      cases hrec : profileAddChar status u ah rest with
      | error er => simp [profileAddChar, hs, hrec] at he
      | ok pr =>
        obtain ⟨rest', more⟩ := pr
        simp only [profileAddChar, hs, hrec, Except.ok.injEq, Prod.mk.injEq] at he
        obtain ⟨h1, h2⟩ := he
        subst h1
        subst h2
        obtain ⟨spre, s0, spost, cpre, c, cpost, hsplit, hcs, hspre, hcpre, hc, hcase⟩ :=
          ih rest' more hrec
        subst hsplit
        have hsnone : ∀ y ∈ s.characteristics, y.uuid ≠ u :=
          addCharChars_eq_none status u ah s.characteristics hs
        refine ⟨s :: spre, s0, spost, cpre, c, cpost, rfl, hcs, ?_, hcpre, hc, ?_⟩
        · intro x hx
          rcases List.mem_cons.1 hx with rfl | hx
          · exact hsnone
          · exact hspre x hx
        · rcases hcase with ⟨ha, hb, hcalls⟩ | ⟨ha, hb, hreg⟩
          · subst hb; subst hcalls; exact Or.inl ⟨ha, rfl, rfl⟩
          · subst hb; exact Or.inr ⟨ha, rfl, hreg⟩

lemma addDescrDescrs_shape (status : Nat) (u : BleUuid) (ah : Nat)
    (ds ds' : List Descriptor) (he : addDescrDescrs status u ah ds = some ds') :
    ∃ dpre d dpost, ds = dpre ++ d :: dpost ∧ (∀ y ∈ dpre, y.uuid ≠ u) ∧ d.uuid = u ∧
      ((status ≠ ESP_GATT_OK ∧ ds' = ds) ∨
       (status = ESP_GATT_OK ∧
        ds' = dpre ++ ({ d with attribute_handle := some ah }) :: dpost)) := by
  induction ds generalizing ds' with
  | nil => exact Option.noConfusion he
  | cons d rest ih =>
    by_cases hdu : d.uuid = u
    · by_cases hst : status ≠ ESP_GATT_OK
      · simp only [addDescrDescrs, if_pos hdu, if_pos hst, Option.some.injEq] at he
        subst he
        exact ⟨[], d, rest, rfl, by simp, hdu, Or.inl ⟨hst, rfl⟩⟩
      · simp only [addDescrDescrs, if_pos hdu, if_neg hst, Option.some.injEq] at he
        subst he
        push_neg at hst
        exact ⟨[], d, rest, rfl, by simp, hdu, Or.inr ⟨hst, rfl⟩⟩
    · cases hrec : addDescrDescrs status u ah rest with
      | none => simp [addDescrDescrs, hdu, hrec] at he
      | some rest' =>
        simp only [addDescrDescrs, if_neg hdu, hrec, Option.some.injEq] at he
        subst he
        obtain ⟨dpre, d0, dpost, hsplit, hpre, hd0, hcase⟩ := ih rest' hrec
        subst hsplit
        refine ⟨d :: dpre, d0, dpost, rfl, ?_, hd0, ?_⟩
        · intro y hy
          rcases List.mem_cons.1 hy with rfl | hy
          · exact hdu
          · exact hpre y hy
        · rcases hcase with ⟨ha, hb⟩ | ⟨ha, hb⟩
          · subst hb; exact Or.inl ⟨ha, rfl⟩
          · subst hb; exact Or.inr ⟨ha, rfl⟩

lemma addDescrDescrs_eq_none (status : Nat) (u : BleUuid) (ah : Nat)
    (ds : List Descriptor) (h : addDescrDescrs status u ah ds = none) :
    ∀ y ∈ ds, y.uuid ≠ u := by
  induction ds with
  | nil => intro y hy; exact absurd hy (List.not_mem_nil y)
  | cons d rest ih =>
    by_cases hdu : d.uuid = u
    · by_cases hst : status ≠ ESP_GATT_OK
      · simp [addDescrDescrs, hdu, hst] at h
      · simp [addDescrDescrs, hdu, hst] at h
    · cases hrec : addDescrDescrs status u ah rest with
      | none =>
        intro y hy
        rcases List.mem_cons.1 hy with rfl | hy
        · exact hdu
        · exact ih hrec y hy
      | some rest' => simp [addDescrDescrs, hdu, hrec] at h

lemma addDescrChars_shape (status : Nat) (u : BleUuid) (ah : Nat)
    (cs cs' : List Characteristic) (he : addDescrChars status u ah cs = some cs') :
    ∃ cpre c cpost ds', cs = cpre ++ c :: cpost ∧
      (∀ y ∈ cpre, ∀ z ∈ y.descriptors, z.uuid ≠ u) ∧
      addDescrDescrs status u ah c.descriptors = some ds' ∧
      cs' = cpre ++ ({ c with descriptors := ds' }) :: cpost := by
  induction cs generalizing cs' with
  | nil => exact Option.noConfusion he
  | cons c rest ih =>
    cases hds : addDescrDescrs status u ah c.descriptors with
    | some ds' =>
      simp only [addDescrChars, hds, Option.some.injEq] at he
      subst he
      exact ⟨[], c, rest, ds', rfl, by simp, hds, rfl⟩
    | none =>
      cases hrec : addDescrChars status u ah rest with
      | none => simp [addDescrChars, hds, hrec] at he
      | some rest' =>
        simp only [addDescrChars, hds, hrec, Option.some.injEq] at he
        subst he
        obtain ⟨cpre, c0, cpost, ds', hsplit, hpre, hds0, hcs'⟩ := ih rest' hrec
        subst hsplit
        subst hcs'
        refine ⟨c :: cpre, c0, cpost, ds', rfl, ?_, hds0, rfl⟩
        intro y hy
        rcases List.mem_cons.1 hy with rfl | hy
        · exact addDescrDescrs_eq_none status u ah y.descriptors hds
        · exact hpre y hy

lemma addDescrChars_eq_none (status : Nat) (u : BleUuid) (ah : Nat)
    (cs : List Characteristic) (h : addDescrChars status u ah cs = none) :
    ∀ y ∈ cs, ∀ z ∈ y.descriptors, z.uuid ≠ u := by
  induction cs with
  | nil => intro y hy; exact absurd hy (List.not_mem_nil y)
  | cons c rest ih =>
    cases hds : addDescrDescrs status u ah c.descriptors with
    | some ds' => simp [addDescrChars, hds] at h
    | none =>
      cases hrec : addDescrChars status u ah rest with
      | some rest' => simp [addDescrChars, hds, hrec] at h
      | none =>
        intro y hy
        rcases List.mem_cons.1 hy with rfl | hy
        · exact addDescrDescrs_eq_none status u ah y.descriptors hds
        · exact ih hrec y hy

lemma profileAddDescr_shape (status : Nat) (u : BleUuid) (ah : Nat)
    (services services' : List Service)
    (he : profileAddDescr status u ah services = Except.ok services') :
    ∃ spre s spost cs', services = spre ++ s :: spost ∧
      (∀ x ∈ spre, ∀ y ∈ x.characteristics, ∀ z ∈ y.descriptors, z.uuid ≠ u) ∧
      addDescrChars status u ah s.characteristics = some cs' ∧
      services' = spre ++ ({ s with characteristics := cs' }) :: spost := by
  induction services generalizing services' with
  | nil => exact Except.noConfusion he
  | cons s rest ih =>
    cases hs : addDescrChars status u ah s.characteristics with
    | some cs' =>
      simp only [profileAddDescr, hs, Except.ok.injEq] at he
      subst he
      exact ⟨[], s, rest, cs', rfl, by simp, hs, rfl⟩
    | none =>
      cases hrec : profileAddDescr status u ah rest with
      | error er => simp [profileAddDescr, hs, hrec] at he
      | ok rest' =>
        simp only [profileAddDescr, hs, hrec, Except.ok.injEq] at he
        subst he
        obtain ⟨spre, s0, spost, cs', hsplit, hpre, hcs0, hsv⟩ := ih rest' hrec
        subst hsplit
        subst hsv
        refine ⟨s :: spre, s0, spost, cs', rfl, ?_, hcs0, rfl⟩
        intro x hx
        rcases List.mem_cons.1 hx with rfl | hx
        · exact addDescrChars_eq_none status u ah x.characteristics hs
        · exact hpre x hx

/-! State-extraction lemmas for the profile-level handler. -/

lemma handler_reg_state (p : Profile) (gif : Nat) (status appId : Nat)
    (p' : Profile) (calls : List Call)
    (he : p.gatts_event_handler gif (GattsEvent.reg status appId) =
      Except.ok (p', calls)) : p' = p := by
  by_cases hst : status ≠ ESP_GATT_OK
  · simp only [Profile.gatts_event_handler, if_pos hst,
      Except.ok.injEq, Prod.mk.injEq] at he
    exact he.1.symm
  · cases hi : p.interface with
    | none => simp [Profile.gatts_event_handler, hst, hi] at he
    | some i =>
      cases hr : p.register_services with
      | error er => simp [Profile.gatts_event_handler, hst, hi, hr] at he
      | ok cs =>
        simp only [Profile.gatts_event_handler, if_neg hst, hi, hr,
          Except.ok.injEq, Prod.mk.injEq] at he
        exact he.1.symm

lemma handler_create_state (p : Profile) (gif : Nat) (status : Nat) (u : BleUuid)
    (h : Nat) (p' : Profile) (calls : List Call)
    (he : p.gatts_event_handler gif (GattsEvent.create status u h) =
      Except.ok (p', calls)) :
    profileCreate status u h p.services = Except.ok (p'.services, calls) ∧
      p'.identifier = p.identifier ∧ p'.interface = p.interface := by
  cases hc : profileCreate status u h p.services with
  | error er => simp [Profile.gatts_event_handler, hc] at he
  | ok pr =>
    obtain ⟨ss, cs⟩ := pr
    simp only [Profile.gatts_event_handler, hc, Except.ok.injEq, Prod.mk.injEq] at he
    obtain ⟨h1, h2⟩ := he
    subst h2
    subst h1
    exact ⟨rfl, rfl, rfl⟩

lemma handler_start_state (p : Profile) (gif : Nat) (status h : Nat)
    (p' : Profile) (calls : List Call)
    (he : p.gatts_event_handler gif (GattsEvent.start status h) =
      Except.ok (p', calls)) : p' = p ∧ calls = [] := by
  cases hc : profileStart h p.services with
  | error er => simp [Profile.gatts_event_handler, hc] at he
  | ok uu =>
    simp only [Profile.gatts_event_handler, hc, Except.ok.injEq, Prod.mk.injEq] at he
    exact ⟨he.1.symm, he.2.symm⟩

lemma handler_addChar_state (p : Profile) (gif : Nat) (status : Nat) (u : BleUuid)
    (ah : Nat) (p' : Profile) (calls : List Call)
    (he : p.gatts_event_handler gif (GattsEvent.addChar status u ah) =
      Except.ok (p', calls)) :
    profileAddChar status u ah p.services = Except.ok (p'.services, calls) ∧
      p'.identifier = p.identifier ∧ p'.interface = p.interface := by
  cases hc : profileAddChar status u ah p.services with
  | error er => simp [Profile.gatts_event_handler, hc] at he
  | ok pr =>
    obtain ⟨ss, cs⟩ := pr
    simp only [Profile.gatts_event_handler, hc, Except.ok.injEq, Prod.mk.injEq] at he
    obtain ⟨h1, h2⟩ := he
    subst h2
    subst h1
    exact ⟨rfl, rfl, rfl⟩

lemma handler_addDescr_state (p : Profile) (gif : Nat) (status : Nat) (u : BleUuid)
    (ah : Nat) (p' : Profile) (calls : List Call)
    (he : p.gatts_event_handler gif (GattsEvent.addCharDescr status u ah) =
      Except.ok (p', calls)) :
    profileAddDescr status u ah p.services = Except.ok p'.services ∧ calls = [] ∧
      p'.identifier = p.identifier ∧ p'.interface = p.interface := by
  cases hc : profileAddDescr status u ah p.services with
  | error er => simp [Profile.gatts_event_handler, hc] at he
  | ok ss =>
    simp only [Profile.gatts_event_handler, hc, Except.ok.injEq, Prod.mk.injEq] at he
    obtain ⟨h1, h2⟩ := he
    subst h2
    subst h1
    exact ⟨rfl, rfl, rfl, rfl⟩

lemma handler_read_state (p : Profile) (gif : Nat) (connId transId handle : Nat)
    (p' : Profile) (calls : List Call)
    (he : p.gatts_event_handler gif (GattsEvent.read connId transId handle) =
      Except.ok (p', calls)) :
    p' = p ∧ calls = readRespCalls gif connId transId handle p.services := by
  simp only [Profile.gatts_event_handler, Except.ok.injEq, Prod.mk.injEq] at he
  exact ⟨he.1.symm, he.2.symm⟩

/-! Handle-evolution predicates: a property `Q` of the handle field of every
entity with a given UUID, and its preservation by the dispatcher. -/

/-- `Q` holds of the `attribute_handle` of every characteristic with UUID `u`. -/
def CharsQ (u : BleUuid) (Q : Option Nat → Prop) (services : List Service) : Prop :=
  ∀ s ∈ services, ∀ c ∈ s.characteristics, c.uuid = u → Q c.attribute_handle

/-- `Q` holds of the `attribute_handle` of every descriptor with UUID `u`. -/
def DescrsQ (u : BleUuid) (Q : Option Nat → Prop) (services : List Service) : Prop :=
  ∀ s ∈ services, ∀ c ∈ s.characteristics, ∀ d ∈ c.descriptors,
    d.uuid = u → Q d.attribute_handle

/-- `Q` holds of the `handle` of every service with UUID `u`. -/
def SvcsQ (u : BleUuid) (Q : Option Nat → Prop) (services : List Service) : Prop :=
  ∀ s ∈ services, s.uuid = u → Q s.handle

lemma CharsQ_append {u : BleUuid} {Q : Option Nat → Prop} {a b : List Service} :
    CharsQ u Q (a ++ b) ↔ CharsQ u Q a ∧ CharsQ u Q b := by
  simp only [CharsQ]
  exact List.forall_mem_append

lemma CharsQ_cons {u : BleUuid} {Q : Option Nat → Prop} {s : Service}
    {rest : List Service} :
    CharsQ u Q (s :: rest) ↔
      ((∀ c ∈ s.characteristics, c.uuid = u → Q c.attribute_handle) ∧
        CharsQ u Q rest) := by
  simp [CharsQ, List.forall_mem_cons]

lemma DescrsQ_append {u : BleUuid} {Q : Option Nat → Prop} {a b : List Service} :
    DescrsQ u Q (a ++ b) ↔ DescrsQ u Q a ∧ DescrsQ u Q b := by
  simp only [DescrsQ]
  exact List.forall_mem_append

lemma DescrsQ_cons {u : BleUuid} {Q : Option Nat → Prop} {s : Service}
    {rest : List Service} :
    DescrsQ u Q (s :: rest) ↔
      ((∀ c ∈ s.characteristics, ∀ d ∈ c.descriptors, d.uuid = u → Q d.attribute_handle) ∧
        DescrsQ u Q rest) := by
  simp [DescrsQ, List.forall_mem_cons]

lemma SvcsQ_append {u : BleUuid} {Q : Option Nat → Prop} {a b : List Service} :
    SvcsQ u Q (a ++ b) ↔ SvcsQ u Q a ∧ SvcsQ u Q b := by
  simp only [SvcsQ]
  exact List.forall_mem_append

lemma SvcsQ_cons {u : BleUuid} {Q : Option Nat → Prop} {s : Service}
    {rest : List Service} :
    SvcsQ u Q (s :: rest) ↔ ((s.uuid = u → Q s.handle) ∧ SvcsQ u Q rest) := by
  simp [SvcsQ, List.forall_mem_cons]

lemma charsQ_profileCreate (status : Nat) (u' : BleUuid) (h : Nat)
    (services services' : List Service) (calls : List Call)
    (he : profileCreate status u' h services = Except.ok (services', calls))
    (u : BleUuid) (Q : Option Nat → Prop)
    (hQ : CharsQ u Q services) : CharsQ u Q services' := by
  obtain ⟨pre, s, post, hsplit, hpre, hsu, hcase⟩ :=
    profileCreate_shape status u' h services services' calls he
  subst hsplit
  rw [CharsQ_append, CharsQ_cons] at hQ
  obtain ⟨hQpre, hQs, hQpost⟩ := hQ
  rcases hcase with ⟨_, hb, _⟩ | ⟨_, hb, _⟩ <;> subst hb <;>
    rw [CharsQ_append, CharsQ_cons] <;> refine ⟨hQpre, ?_, hQpost⟩
  · exact hQs
  · intro c hc
    rcases List.mem_map.1 hc with ⟨c0, hc0, rfl⟩
    exact hQs c0 hc0

lemma svcsQ_profileCreate (status : Nat) (u' : BleUuid) (h : Nat)
    (services services' : List Service) (calls : List Call)
    (he : profileCreate status u' h services = Except.ok (services', calls))
    (u : BleUuid) (Q : Option Nat → Prop)
    (hW : u' = u → Q (some h))
    (hQ : SvcsQ u Q services) : SvcsQ u Q services' := by
  obtain ⟨pre, s, post, hsplit, hpre, hsu, hcase⟩ :=
    profileCreate_shape status u' h services services' calls he
  subst hsplit
  rw [SvcsQ_append, SvcsQ_cons] at hQ
  obtain ⟨hQpre, hQs, hQpost⟩ := hQ
  rcases hcase with ⟨_, hb, _⟩ | ⟨_, hb, _⟩ <;> subst hb <;>
    rw [SvcsQ_append, SvcsQ_cons] <;> refine ⟨hQpre, ?_, hQpost⟩ <;>
    · intro hsu'
      exact hW (hsu ▸ hsu')

lemma descrsQ_profileCreate (status : Nat) (u' : BleUuid) (h : Nat)
    (services services' : List Service) (calls : List Call)
    (he : profileCreate status u' h services = Except.ok (services', calls))
    (u : BleUuid) (Q : Option Nat → Prop)
    (hQ : DescrsQ u Q services) : DescrsQ u Q services' := by
  obtain ⟨pre, s, post, hsplit, hpre, hsu, hcase⟩ :=
    profileCreate_shape status u' h services services' calls he
  subst hsplit
  rw [DescrsQ_append, DescrsQ_cons] at hQ
  obtain ⟨hQpre, hQs, hQpost⟩ := hQ
  rcases hcase with ⟨_, hb, _⟩ | ⟨_, hb, _⟩ <;> subst hb <;>
    rw [DescrsQ_append, DescrsQ_cons] <;> refine ⟨hQpre, ?_, hQpost⟩
  · exact hQs
  · intro c hc
    rcases List.mem_map.1 hc with ⟨c0, hc0, rfl⟩
    exact hQs c0 hc0

lemma charsQ_profileAddChar (status : Nat) (u' : BleUuid) (ah : Nat)
    (services services' : List Service) (calls : List Call)
    (he : profileAddChar status u' ah services = Except.ok (services', calls))
    (u : BleUuid) (Q : Option Nat → Prop)
    (hW : status = ESP_GATT_OK → u' = u → Q (some ah))
    (hQ : CharsQ u Q services) : CharsQ u Q services' := by
  obtain ⟨spre, s, spost, cpre, c, cpost, hsplit, hcs, hspre, hcpre, hcu, hcase⟩ :=
    profileAddChar_shape status u' ah services services' calls he
  rcases hcase with ⟨_, hb, _⟩ | ⟨hst, hb, _⟩
  · subst hb; exact hQ
  · subst hsplit
    subst hb
    rw [CharsQ_append, CharsQ_cons] at hQ
    obtain ⟨hQpre, hQs, hQpost⟩ := hQ
    rw [CharsQ_append, CharsQ_cons]
    refine ⟨hQpre, ?_, hQpost⟩
    rw [hcs] at hQs
    intro c' hc'
    rw [List.mem_append, List.mem_cons] at hc'
    rcases hc' with hc' | rfl | hc'
    · exact hQs c' (List.mem_append.2 (Or.inl hc'))
    · intro hcu'
      exact hW hst (hcu ▸ hcu')
    · exact hQs c' (List.mem_append.2 (Or.inr (List.mem_cons_of_mem c hc')))

lemma svcsQ_profileAddChar (status : Nat) (u' : BleUuid) (ah : Nat)
    (services services' : List Service) (calls : List Call)
    (he : profileAddChar status u' ah services = Except.ok (services', calls))
    (u : BleUuid) (Q : Option Nat → Prop)
    (hQ : SvcsQ u Q services) : SvcsQ u Q services' := by
  obtain ⟨spre, s, spost, cpre, c, cpost, hsplit, hcs, hspre, hcpre, hcu, hcase⟩ :=
    profileAddChar_shape status u' ah services services' calls he
  rcases hcase with ⟨_, hb, _⟩ | ⟨hst, hb, _⟩
  · subst hb; exact hQ
  · subst hsplit
    subst hb
    rw [SvcsQ_append, SvcsQ_cons] at hQ
    rw [SvcsQ_append, SvcsQ_cons]
    exact hQ

lemma descrsQ_profileAddChar (status : Nat) (u' : BleUuid) (ah : Nat)
    (services services' : List Service) (calls : List Call)
    (he : profileAddChar status u' ah services = Except.ok (services', calls))
    (u : BleUuid) (Q : Option Nat → Prop)
    (hQ : DescrsQ u Q services) : DescrsQ u Q services' := by
  obtain ⟨spre, s, spost, cpre, c, cpost, hsplit, hcs, hspre, hcpre, hcu, hcase⟩ :=
    profileAddChar_shape status u' ah services services' calls he
  rcases hcase with ⟨_, hb, _⟩ | ⟨hst, hb, _⟩
  · subst hb; exact hQ
  · subst hsplit
    subst hb
    rw [DescrsQ_append, DescrsQ_cons] at hQ
    obtain ⟨hQpre, hQs, hQpost⟩ := hQ
    rw [DescrsQ_append, DescrsQ_cons]
    refine ⟨hQpre, ?_, hQpost⟩
    rw [hcs] at hQs
    intro c' hc'
    rw [List.mem_append, List.mem_cons] at hc'
    rcases hc' with hc' | rfl | hc'
    · exact hQs c' (List.mem_append.2 (Or.inl hc'))
    · exact hQs c (List.mem_append.2 (Or.inr (List.mem_cons_self c cpost)))
    · exact hQs c' (List.mem_append.2 (Or.inr (List.mem_cons_of_mem c hc')))

lemma svcsQ_profileAddDescr (status : Nat) (u' : BleUuid) (ah : Nat)
    (services services' : List Service)
    (he : profileAddDescr status u' ah services = Except.ok services')
    (u : BleUuid) (Q : Option Nat → Prop)
    (hQ : SvcsQ u Q services) : SvcsQ u Q services' := by
  obtain ⟨spre, s, spost, cs', hsplit, hspre, hcs', hsv⟩ :=
    profileAddDescr_shape status u' ah services services' he
  subst hsplit
  subst hsv
  rw [SvcsQ_append, SvcsQ_cons] at hQ
  rw [SvcsQ_append, SvcsQ_cons]
  exact hQ

lemma charsQ_profileAddDescr (status : Nat) (u' : BleUuid) (ah : Nat)
    (services services' : List Service)
    (he : profileAddDescr status u' ah services = Except.ok services')
    (u : BleUuid) (Q : Option Nat → Prop)
    (hQ : CharsQ u Q services) : CharsQ u Q services' := by
  obtain ⟨spre, s, spost, cs', hsplit, hspre, hcs', hsv⟩ :=
    profileAddDescr_shape status u' ah services services' he
  subst hsplit
  subst hsv
  obtain ⟨cpre, c, cpost, ds', hcsplit, hcpre, hds', hcs2⟩ :=
    addDescrChars_shape status u' ah s.characteristics cs' hcs'
  subst hcs2
  rw [CharsQ_append, CharsQ_cons] at hQ
  obtain ⟨hQpre, hQs, hQpost⟩ := hQ
  rw [CharsQ_append, CharsQ_cons]
  refine ⟨hQpre, ?_, hQpost⟩
  rw [hcsplit] at hQs
  intro c' hc'
  rw [List.mem_append, List.mem_cons] at hc'
  rcases hc' with hc' | rfl | hc'
  · exact hQs c' (List.mem_append.2 (Or.inl hc'))
  · exact hQs c (List.mem_append.2 (Or.inr (List.mem_cons_self c cpost)))
  · exact hQs c' (List.mem_append.2 (Or.inr (List.mem_cons_of_mem c hc')))

lemma descrsQ_profileAddDescr (status : Nat) (u' : BleUuid) (ah : Nat)
    (services services' : List Service)
    (he : profileAddDescr status u' ah services = Except.ok services')
    (u : BleUuid) (Q : Option Nat → Prop)
    (hW : status = ESP_GATT_OK → u' = u → Q (some ah))
    (hQ : DescrsQ u Q services) : DescrsQ u Q services' := by
  obtain ⟨spre, s, spost, cs', hsplit, hspre, hcs', hsv⟩ :=
    profileAddDescr_shape status u' ah services services' he
  subst hsplit
  subst hsv
  obtain ⟨cpre, c, cpost, ds', hcsplit, hcpre, hds', hcs2⟩ :=
    addDescrChars_shape status u' ah s.characteristics cs' hcs'
  subst hcs2
  obtain ⟨dpre, d, dpost, hdsplit, hdpre, hdu, hdcase⟩ :=
    addDescrDescrs_shape status u' ah c.descriptors ds' hds'
  rw [DescrsQ_append, DescrsQ_cons] at hQ
  obtain ⟨hQpre, hQs, hQpost⟩ := hQ
  rw [DescrsQ_append, DescrsQ_cons]
  refine ⟨hQpre, ?_, hQpost⟩
  rw [hcsplit] at hQs
  have hQc : ∀ d' ∈ c.descriptors, d'.uuid = u → Q d'.attribute_handle :=
    hQs c (List.mem_append.2 (Or.inr (List.mem_cons_self c cpost)))
  intro c' hc'
  rw [List.mem_append, List.mem_cons] at hc'
  rcases hc' with hc' | rfl | hc'
  · exact hQs c' (List.mem_append.2 (Or.inl hc'))
  · rcases hdcase with ⟨_, hb⟩ | ⟨hst, hb⟩
    · subst hb
      exact hQc
    · subst hb
      rw [hdsplit] at hQc
      intro d' hd'
      rw [List.mem_append, List.mem_cons] at hd'
      rcases hd' with hd' | rfl | hd'
      · exact hQc d' (List.mem_append.2 (Or.inl hd'))
      · intro hdu'
        exact hW hst (hdu ▸ hdu')
      · exact hQc d' (List.mem_append.2 (Or.inr (List.mem_cons_of_mem d hd')))
  · exact hQs c' (List.mem_append.2 (Or.inr (List.mem_cons_of_mem c hc')))

lemma handler_quiet_state (p : Profile) (gif : Nat) (e : GattsEvent)
    (p' : Profile) (calls : List Call)
    (hq : (∃ bda, e = GattsEvent.connect bda) ∨ (∃ bda, e = GattsEvent.disconnect bda) ∨
      (∃ m, e = GattsEvent.mtu m) ∨ (∃ code, e = GattsEvent.other code))
    (he : p.gatts_event_handler gif e = Except.ok (p', calls)) :
    p' = p ∧ calls = [] := by
  rcases hq with ⟨bda, rfl⟩ | ⟨bda, rfl⟩ | ⟨m, rfl⟩ | ⟨code, rfl⟩ <;>
  · simp only [Profile.gatts_event_handler, Except.ok.injEq, Prod.mk.injEq] at he
    exact ⟨he.1.symm, he.2.symm⟩

lemma handler_charsQ (p : Profile) (gif : Nat) (e : GattsEvent)
    (p' : Profile) (calls : List Call)
    (he : p.gatts_event_handler gif e = Except.ok (p', calls))
    (u : BleUuid) (Q : Option Nat → Prop)
    (hW : ∀ ah, e = GattsEvent.addChar ESP_GATT_OK u ah → Q (some ah))
    (hQ : CharsQ u Q p.services) : CharsQ u Q p'.services := by
  cases e with
  | reg status appId => rw [handler_reg_state p gif status appId p' calls he]; exact hQ
  | create status u' h =>
    obtain ⟨hc, _, _⟩ := handler_create_state p gif status u' h p' calls he
    exact charsQ_profileCreate status u' h p.services p'.services calls hc u Q hQ
  | start status h =>
    rw [(handler_start_state p gif status h p' calls he).1]; exact hQ
  | addChar status u' ah =>
    obtain ⟨hc, _, _⟩ := handler_addChar_state p gif status u' ah p' calls he
    refine charsQ_profileAddChar status u' ah p.services p'.services calls hc u Q ?_ hQ
    intro hst hu'
    exact hW ah (by rw [hst, hu'])
  | addCharDescr status u' ah =>
    obtain ⟨hc, _, _, _⟩ := handler_addDescr_state p gif status u' ah p' calls he
    exact charsQ_profileAddDescr status u' ah p.services p'.services hc u Q hQ
  | read connId transId handle =>
    rw [(handler_read_state p gif connId transId handle p' calls he).1]; exact hQ
  | connect bda =>
    rw [(handler_quiet_state p gif _ p' calls (Or.inl ⟨bda, rfl⟩) he).1]; exact hQ
  | disconnect bda =>
    rw [(handler_quiet_state p gif _ p' calls (Or.inr (Or.inl ⟨bda, rfl⟩)) he).1]
    exact hQ
  | mtu m =>
    rw [(handler_quiet_state p gif _ p' calls (Or.inr (Or.inr (Or.inl ⟨m, rfl⟩))) he).1]
    exact hQ
  | other code =>
    rw [(handler_quiet_state p gif _ p' calls (Or.inr (Or.inr (Or.inr ⟨code, rfl⟩))) he).1]
    exact hQ

lemma handler_svcsQ (p : Profile) (gif : Nat) (e : GattsEvent)
    (p' : Profile) (calls : List Call)
    (he : p.gatts_event_handler gif e = Except.ok (p', calls))
    (u : BleUuid) (Q : Option Nat → Prop)
    (hW : ∀ status h, e = GattsEvent.create status u h → Q (some h))
    (hQ : SvcsQ u Q p.services) : SvcsQ u Q p'.services := by
  cases e with
  | reg status appId => rw [handler_reg_state p gif status appId p' calls he]; exact hQ
  | create status u' h =>
    obtain ⟨hc, _, _⟩ := handler_create_state p gif status u' h p' calls he
    refine svcsQ_profileCreate status u' h p.services p'.services calls hc u Q ?_ hQ
    intro hu'
    exact hW status h (by rw [hu'])
  | start status h =>
    rw [(handler_start_state p gif status h p' calls he).1]; exact hQ
  | addChar status u' ah =>
    obtain ⟨hc, _, _⟩ := handler_addChar_state p gif status u' ah p' calls he
    exact svcsQ_profileAddChar status u' ah p.services p'.services calls hc u Q hQ
  | addCharDescr status u' ah =>
    obtain ⟨hc, _, _, _⟩ := handler_addDescr_state p gif status u' ah p' calls he
    exact svcsQ_profileAddDescr status u' ah p.services p'.services hc u Q hQ
  | read connId transId handle =>
    rw [(handler_read_state p gif connId transId handle p' calls he).1]; exact hQ
  | connect bda =>
    rw [(handler_quiet_state p gif _ p' calls (Or.inl ⟨bda, rfl⟩) he).1]; exact hQ
  | disconnect bda =>
    rw [(handler_quiet_state p gif _ p' calls (Or.inr (Or.inl ⟨bda, rfl⟩)) he).1]
    exact hQ
  | mtu m =>
    rw [(handler_quiet_state p gif _ p' calls (Or.inr (Or.inr (Or.inl ⟨m, rfl⟩))) he).1]
    exact hQ
  | other code =>
    rw [(handler_quiet_state p gif _ p' calls (Or.inr (Or.inr (Or.inr ⟨code, rfl⟩))) he).1]
    exact hQ

lemma handler_descrsQ (p : Profile) (gif : Nat) (e : GattsEvent)
    (p' : Profile) (calls : List Call)
    (he : p.gatts_event_handler gif e = Except.ok (p', calls))
    (u : BleUuid) (Q : Option Nat → Prop)
    (hW : ∀ ah, e = GattsEvent.addCharDescr ESP_GATT_OK u ah → Q (some ah))
    (hQ : DescrsQ u Q p.services) : DescrsQ u Q p'.services := by
  cases e with
  | reg status appId => rw [handler_reg_state p gif status appId p' calls he]; exact hQ
  | create status u' h =>
    obtain ⟨hc, _, _⟩ := handler_create_state p gif status u' h p' calls he
    exact descrsQ_profileCreate status u' h p.services p'.services calls hc u Q hQ
  | start status h =>
    rw [(handler_start_state p gif status h p' calls he).1]; exact hQ
  | addChar status u' ah =>
    obtain ⟨hc, _, _⟩ := handler_addChar_state p gif status u' ah p' calls he
    exact descrsQ_profileAddChar status u' ah p.services p'.services calls hc u Q hQ
  | addCharDescr status u' ah =>
    obtain ⟨hc, _, _, _⟩ := handler_addDescr_state p gif status u' ah p' calls he
    refine descrsQ_profileAddDescr status u' ah p.services p'.services hc u Q ?_ hQ
    intro hst hu'
    exact hW ah (by rw [hst, hu'])
  | read connId transId handle =>
    rw [(handler_read_state p gif connId transId handle p' calls he).1]; exact hQ
  | connect bda =>
    rw [(handler_quiet_state p gif _ p' calls (Or.inl ⟨bda, rfl⟩) he).1]; exact hQ
  | disconnect bda =>
    rw [(handler_quiet_state p gif _ p' calls (Or.inr (Or.inl ⟨bda, rfl⟩)) he).1]
    exact hQ
  | mtu m =>
    rw [(handler_quiet_state p gif _ p' calls (Or.inr (Or.inr (Or.inl ⟨m, rfl⟩))) he).1]
    exact hQ
  | other code =>
    rw [(handler_quiet_state p gif _ p' calls (Or.inr (Or.inr (Or.inr ⟨code, rfl⟩))) he).1]
    exact hQ

lemma runProfile_charsQ (u : BleUuid) (Q : Option Nat → Prop)
    (t : List (Nat × GattsEvent)) :
    ∀ p p' calls, runProfileEvents p t = Except.ok (p', calls) →
    (∀ x ∈ t, ∀ ah, x.2 = GattsEvent.addChar ESP_GATT_OK u ah → Q (some ah)) →
    CharsQ u Q p.services → CharsQ u Q p'.services := by
  induction t with
  | nil =>
    intro p p' calls h _ hQ
    simp only [runProfileEvents, Except.ok.injEq, Prod.mk.injEq] at h
    rw [← h.1]
    exact hQ
  | cons x rest ih =>
    obtain ⟨gif, e⟩ := x
    intro p p' calls h hEv hQ
    cases hs : p.gatts_event_handler gif e with
    | error er => simp [runProfileEvents, hs] at h
    | ok pr =>
      obtain ⟨p1, c1⟩ := pr
      cases hr : runProfileEvents p1 rest with
      | error er => simp [runProfileEvents, hs, hr] at h
      | ok pr2 =>
        obtain ⟨p2, c2⟩ := pr2
        simp only [runProfileEvents, hs, hr, Except.ok.injEq, Prod.mk.injEq] at h
        rw [← h.1]
        have h1 := handler_charsQ p gif e p1 c1 hs u Q
          (fun ah hah => hEv (gif, e) (List.mem_cons_self _ rest) ah hah) hQ
        exact ih p1 p2 c2 hr
          (fun x hx ah hah => hEv x (List.mem_cons_of_mem _ hx) ah hah) h1

lemma runProfile_svcsQ (u : BleUuid) (Q : Option Nat → Prop)
    (t : List (Nat × GattsEvent)) :
    ∀ p p' calls, runProfileEvents p t = Except.ok (p', calls) →
    (∀ x ∈ t, ∀ status h, x.2 = GattsEvent.create status u h → Q (some h)) →
    SvcsQ u Q p.services → SvcsQ u Q p'.services := by
  induction t with
  | nil =>
    intro p p' calls h _ hQ
    simp only [runProfileEvents, Except.ok.injEq, Prod.mk.injEq] at h
    rw [← h.1]
    exact hQ
  | cons x rest ih =>
    obtain ⟨gif, e⟩ := x
    intro p p' calls h hEv hQ
    cases hs : p.gatts_event_handler gif e with
    | error er => simp [runProfileEvents, hs] at h
    | ok pr =>
      obtain ⟨p1, c1⟩ := pr
      cases hr : runProfileEvents p1 rest with
      | error er => simp [runProfileEvents, hs, hr] at h
      | ok pr2 =>
        obtain ⟨p2, c2⟩ := pr2
        simp only [runProfileEvents, hs, hr, Except.ok.injEq, Prod.mk.injEq] at h
        rw [← h.1]
        have h1 := handler_svcsQ p gif e p1 c1 hs u Q
          (fun status hh hah => hEv (gif, e) (List.mem_cons_self _ rest) status hh hah) hQ
        exact ih p1 p2 c2 hr
          (fun x hx status hh hah => hEv x (List.mem_cons_of_mem _ hx) status hh hah) h1

lemma runProfile_descrsQ (u : BleUuid) (Q : Option Nat → Prop)
    (t : List (Nat × GattsEvent)) :
    ∀ p p' calls, runProfileEvents p t = Except.ok (p', calls) →
    (∀ x ∈ t, ∀ ah, x.2 = GattsEvent.addCharDescr ESP_GATT_OK u ah → Q (some ah)) →
    DescrsQ u Q p.services → DescrsQ u Q p'.services := by
  induction t with
  | nil =>
    intro p p' calls h _ hQ
    simp only [runProfileEvents, Except.ok.injEq, Prod.mk.injEq] at h
    rw [← h.1]
    exact hQ
  | cons x rest ih =>
    obtain ⟨gif, e⟩ := x
    intro p p' calls h hEv hQ
    cases hs : p.gatts_event_handler gif e with
    | error er => simp [runProfileEvents, hs] at h
    | ok pr =>
      obtain ⟨p1, c1⟩ := pr
      cases hr : runProfileEvents p1 rest with
      | error er => simp [runProfileEvents, hs, hr] at h
      | ok pr2 =>
        obtain ⟨p2, c2⟩ := pr2
        simp only [runProfileEvents, hs, hr, Except.ok.injEq, Prod.mk.injEq] at h
        rw [← h.1]
        have h1 := handler_descrsQ p gif e p1 c1 hs u Q
          (fun ah hah => hEv (gif, e) (List.mem_cons_self _ rest) ah hah) hQ
        exact ih p1 p2 c2 hr
          (fun x hx ah hah => hEv x (List.mem_cons_of_mem _ hx) ah hah) h1

/-- Does this event target a characteristic with UUID `u` with a successful
add-characteristic confirmation? -/
def isAddCharFor (u : BleUuid) : GattsEvent → Bool
  | GattsEvent.addChar status u' _ => decide (status = ESP_GATT_OK ∧ u' = u)
  | _ => false

/-- Does this event target a service with UUID `u` with a service-created
confirmation (any status — the handler assigns the handle regardless)? -/
def isCreateFor (u : BleUuid) : GattsEvent → Bool
  | GattsEvent.create _ u' _ => decide (u' = u)
  | _ => false

/-- Does this event target a descriptor with UUID `u` with a successful
add-descriptor confirmation? -/
def isAddDescrFor (u : BleUuid) : GattsEvent → Bool
  | GattsEvent.addCharDescr status u' _ => decide (status = ESP_GATT_OK ∧ u' = u)
  | _ => false

/-- A profile whose single service has UUID 50 and no handle yet. -/
def pC5 : Profile :=
  { identifier := 1, interface := some 3,
    services := [Service.new (BleUuid.uuid16 50) true []] }

/-- C5 counterexample: dispatching two service-created events for the same
UUID overwrites the stack-confirmed handle (`some 1` before, `some 2` after),
so over an arbitrary dispatched sequence the handle is not write-once. -/
theorem handle_overwritten_cex :
    runProfileEvents pC5 [(3, GattsEvent.create 1 (BleUuid.uuid16 50) 1)] =
      Except.ok ({ pC5 with services :=
        [{ Service.new (BleUuid.uuid16 50) true [] with handle := some 1 }] }, []) ∧
    runProfileEvents pC5 [(3, GattsEvent.create 1 (BleUuid.uuid16 50) 1),
                          (3, GattsEvent.create 1 (BleUuid.uuid16 50) 2)] =
      Except.ok ({ pC5 with services :=
        [{ Service.new (BleUuid.uuid16 50) true [] with handle := some 2 }] }, []) ∧
    (some 1 : Option Nat) ≠ some 2 :=
  ⟨rfl, rfl, by decide⟩

/-- C5 (amended): every entity's handle field is `None` immediately after
construction; once it holds a value it never reverts to `None`; and it changes
only when a later confirmation event for the same entity UUID is dispatched —
in particular, as long as no further matching confirmation arrives (the
stack's one-confirmation-per-request regime), it keeps the one
stack-confirmed value it was assigned. -/
theorem handle_write_once_amended :
    (∀ n u pm pr, (Characteristic.new n u pm pr).attribute_handle = none) ∧
    (∀ u pm, (Descriptor.new u pm).attribute_handle = none) ∧
    (∀ u b cs, (Service.new u b cs).handle = none) ∧
    (∀ u t p p' calls, runProfileEvents p t = Except.ok (p', calls) →
      (CharsQ u (fun o => o.isSome = true) p.services →
        CharsQ u (fun o => o.isSome = true) p'.services) ∧
      (SvcsQ u (fun o => o.isSome = true) p.services →
        SvcsQ u (fun o => o.isSome = true) p'.services) ∧
      (DescrsQ u (fun o => o.isSome = true) p.services →
        DescrsQ u (fun o => o.isSome = true) p'.services)) ∧
    (∀ u v t p p' calls, runProfileEvents p t = Except.ok (p', calls) →
      (CharsQ u (fun o => o = some v) p.services →
        (∀ x ∈ t, isAddCharFor u x.2 = false) →
        CharsQ u (fun o => o = some v) p'.services) ∧
      (SvcsQ u (fun o => o = some v) p.services →
        (∀ x ∈ t, isCreateFor u x.2 = false) →
        SvcsQ u (fun o => o = some v) p'.services) ∧
      (DescrsQ u (fun o => o = some v) p.services →
        (∀ x ∈ t, isAddDescrFor u x.2 = false) →
        DescrsQ u (fun o => o = some v) p'.services)) := by
  refine ⟨fun n u pm pr => rfl, fun u pm => rfl, fun u b cs => rfl, ?_, ?_⟩
  · intro u t p p' calls h
    refine ⟨?_, ?_, ?_⟩
    · exact runProfile_charsQ u (fun o => o.isSome = true) t p p' calls h
        (fun _ _ _ _ => rfl)
    · exact runProfile_svcsQ u (fun o => o.isSome = true) t p p' calls h
        (fun _ _ _ _ _ => rfl)
    · exact runProfile_descrsQ u (fun o => o.isSome = true) t p p' calls h
        (fun _ _ _ _ => rfl)
  · intro u v t p p' calls h
    refine ⟨?_, ?_, ?_⟩
    · intro hQ hb
      refine runProfile_charsQ u (fun o => o = some v) t p p' calls h ?_ hQ
      intro x hx ah heq
      have hx2 := hb x hx
      rw [heq] at hx2
      simp [isAddCharFor] at hx2
    · intro hQ hb
      refine runProfile_svcsQ u (fun o => o = some v) t p p' calls h ?_ hQ
      intro x hx status hh heq
      have hx2 := hb x hx
      rw [heq] at hx2
      simp [isCreateFor] at hx2
    · intro hQ hb
      refine runProfile_descrsQ u (fun o => o = some v) t p p' calls h ?_ hQ
      intro x hx ah heq
      have hx2 := hb x hx
      rw [heq] at hx2
      simp [isAddDescrFor] at hx2

/-- Witness for `handle_write_once_amended`: the registered characteristic at
handle 42 keeps its handle across a dispatched service-created event that
does not target it. -/
theorem handle_write_once_amended_witness :
    (Characteristic.new "w" (BleUuid.uuid16 77) 0 0).attribute_handle = none ∧
    (Descriptor.new (BleUuid.uuid16 78) 0).attribute_handle = none ∧
    (Service.new (BleUuid.uuid16 79) true []).handle = none ∧
    runProfileEvents pReg [(3, GattsEvent.create 1 (BleUuid.uuid16 1) 7)] =
      Except.ok ({ pReg with services := [{ sReg with handle := some 7 }] }, []) ∧
    CharsQ (BleUuid.uuid16 21) (fun o => o = some 42) pReg.services ∧
    (∀ x ∈ [((3 : Nat), GattsEvent.create 1 (BleUuid.uuid16 1) 7)],
      isAddCharFor (BleUuid.uuid16 21) x.2 = false) ∧
    CharsQ (BleUuid.uuid16 21) (fun o => o = some 42)
      ({ pReg with services := [{ sReg with handle := some 7 }] } : Profile).services := by
  refine ⟨handle_write_once_amended.1 "w" (BleUuid.uuid16 77) 0 0,
    handle_write_once_amended.2.1 (BleUuid.uuid16 78) 0,
    handle_write_once_amended.2.2.1 (BleUuid.uuid16 79) true [],
    rfl, by unfold CharsQ; decide, by decide, ?_⟩
  exact (handle_write_once_amended.2.2.2.2 (BleUuid.uuid16 21) 42
      [(3, GattsEvent.create 1 (BleUuid.uuid16 1) 7)] pReg
      { pReg with services := [{ sReg with handle := some 7 }] } [] rfl).1
    (by unfold CharsQ; decide) (by decide)

/-! Subtree-call classification: which outbound calls belong to a failed
service's subtree, and the invariants that let calls be attributed by UUID. -/

/-- Is this call a start-service, add-characteristic, or add-descriptor call
for the subtree identified by the service handle `hA`, the characteristic
UUIDs `charUs`, and the descriptor UUIDs `descrUs`? -/
def touchesSubtree (hA : Nat) (charUs descrUs : List BleUuid) : Call → Bool
  | Call.startService h => decide (h = hA)
  | Call.addChar _ u _ _ _ _ _ => decide (u ∈ charUs)
  | Call.addDescriptor _ u _ => decide (u ∈ descrUs)
  | _ => false

/-- Does this event leave the failed subtree alone: it neither re-creates the
service with UUID `uA` nor reuses its handle `hA`, and carries no successful
confirmation for one of the subtree's characteristic or descriptor UUIDs? -/
def avoidsSubtree (uA : BleUuid) (hA : Nat) (charUs descrUs : List BleUuid) :
    GattsEvent → Bool
  | GattsEvent.create _ u' h => decide (u' ≠ uA ∧ h ≠ hA)
  | GattsEvent.addChar status u' _ => decide (status = ESP_GATT_OK → u' ∉ charUs)
  | GattsEvent.addCharDescr status u' _ => decide (status = ESP_GATT_OK → u' ∉ descrUs)
  | _ => true

/-- Characteristics with a subtree UUID occur only inside the service `uA`
(the spec's sibling-uniqueness invariant, section 3). -/
def CharsOwn (uA : BleUuid) (charUs : List BleUuid) (services : List Service) : Prop :=
  ∀ s ∈ services, s.uuid ≠ uA → ∀ c ∈ s.characteristics, c.uuid ∉ charUs

/-- Descriptors with a subtree UUID occur only inside subtree characteristics. -/
def DescrsOwn (charUs descrUs : List BleUuid) (services : List Service) : Prop :=
  ∀ s ∈ services, ∀ c ∈ s.characteristics, c.uuid ∉ charUs →
    ∀ d ∈ c.descriptors, d.uuid ∉ descrUs

lemma handler_reg_calls (p : Profile) (gif : Nat) (status appId : Nat)
    (p' : Profile) (calls : List Call)
    (he : p.gatts_event_handler gif (GattsEvent.reg status appId) =
      Except.ok (p', calls)) :
    calls = [] ∨ ∃ i, calls = (p.services.map (fun s => s.register i)).flatten := by
  by_cases hst : status ≠ ESP_GATT_OK
  · simp only [Profile.gatts_event_handler, if_pos hst,
      Except.ok.injEq, Prod.mk.injEq] at he
    exact Or.inl he.2.symm
  · cases hi : p.interface with
    | none => simp [Profile.gatts_event_handler, hst, hi] at he
    | some i =>
      cases hr : p.register_services with
      | error er => simp [Profile.gatts_event_handler, hst, hi, hr] at he
      | ok cs =>
        simp only [Profile.gatts_event_handler, if_neg hst, hi, hr,
          Except.ok.injEq, Prod.mk.injEq] at he
        refine Or.inr ⟨i, ?_⟩
        rw [← he.2]
        simp only [Profile.register_services, hi, Except.ok.injEq] at hr
        exact hr.symm

lemma register_descriptors_ok_cases (c : Characteristic) (calls : List Call)
    (he : c.register_descriptors = Except.ok calls) :
    calls = [] ∨ ∃ sh, c.service_handle = some sh ∧
      calls = (c.descriptors.map (fun d => d.register_self sh)).flatten := by
  cases hsh : c.service_handle with
  | none =>
    cases hds : c.descriptors with
    | nil =>
      unfold Characteristic.register_descriptors at he
      rw [hsh, hds] at he
      injection he with he
      exact Or.inl he.symm
    | cons d ds =>
      unfold Characteristic.register_descriptors at he
      rw [hsh, hds] at he
      exact Except.noConfusion he
  | some sh =>
    unfold Characteristic.register_descriptors at he
    rw [hsh, registerDescriptorsAux_some] at he
    injection he with he
    exact Or.inr ⟨sh, rfl, he.symm⟩

lemma charsOwn_handler (p : Profile) (gif : Nat) (e : GattsEvent)
    (p' : Profile) (calls : List Call)
    (he : p.gatts_event_handler gif e = Except.ok (p', calls))
    (uA : BleUuid) (charUs : List BleUuid)
    (hInv : CharsOwn uA charUs p.services) : CharsOwn uA charUs p'.services := by
  cases e with
  | reg status appId => rw [handler_reg_state p gif status appId p' calls he]; exact hInv
  | create status u' h =>
    obtain ⟨hc, _, _⟩ := handler_create_state p gif status u' h p' calls he
    obtain ⟨pre, s, post, hsplit, hpre, hsu, hcase⟩ :=
      profileCreate_shape status u' h p.services p'.services calls hc
    rw [hsplit] at hInv
    intro s' hs' hsu' c hcmem
    rcases hcase with ⟨_, hb, _⟩ | ⟨_, hb, _⟩ <;> rw [hb] at hs' <;>
      rw [List.mem_append, List.mem_cons] at hs'
    · rcases hs' with hs' | rfl | hs'
      · exact hInv s' (List.mem_append.2 (Or.inl hs')) hsu' c hcmem
      · exact hInv s (List.mem_append.2 (Or.inr (List.mem_cons_self s post))) hsu' c hcmem
      · exact hInv s' (List.mem_append.2 (Or.inr (List.mem_cons_of_mem s hs'))) hsu' c hcmem
    · rcases hs' with hs' | rfl | hs'
      · exact hInv s' (List.mem_append.2 (Or.inl hs')) hsu' c hcmem
      · rcases List.mem_map.1 hcmem with ⟨c0, hc0, rfl⟩
        exact hInv s (List.mem_append.2 (Or.inr (List.mem_cons_self s post))) hsu' c0 hc0
      · exact hInv s' (List.mem_append.2 (Or.inr (List.mem_cons_of_mem s hs'))) hsu' c hcmem
  | start status h =>
    rw [(handler_start_state p gif status h p' calls he).1]; exact hInv
  | addChar status u' ah =>
    obtain ⟨hc, _, _⟩ := handler_addChar_state p gif status u' ah p' calls he
    obtain ⟨spre, s, spost, cpre, c, cpost, hsplit, hcs, hspre, hcpre, hcu, hcase⟩ :=
      profileAddChar_shape status u' ah p.services p'.services calls hc
    rcases hcase with ⟨_, hb, _⟩ | ⟨hst, hb, _⟩
    · rw [hb]; exact hInv
    · rw [hsplit] at hInv
      intro s' hs' hsu' c' hcmem
      rw [hb, List.mem_append, List.mem_cons] at hs'
      rcases hs' with hs' | rfl | hs'
      · exact hInv s' (List.mem_append.2 (Or.inl hs')) hsu' c' hcmem
      · have hcmem' : c'.uuid ∈ (cpre ++ c :: cpost).map Characteristic.uuid := by
          simp only [List.mem_map]
          simp only [List.mem_append, List.mem_cons] at hcmem ⊢
          rcases hcmem with hm | rfl | hm
          · exact ⟨c', Or.inl hm, rfl⟩
          · exact ⟨c, Or.inr (Or.inl rfl), rfl⟩
          · exact ⟨c', Or.inr (Or.inr hm), rfl⟩
        rcases List.mem_map.1 hcmem' with ⟨c0, hc0, hc0u⟩
        rw [← hc0u]
        exact hInv s (List.mem_append.2 (Or.inr (List.mem_cons_self s spost))) hsu' c0
          (hcs ▸ hc0)
      · exact hInv s' (List.mem_append.2 (Or.inr (List.mem_cons_of_mem s hs'))) hsu' c' hcmem
  | addCharDescr status u' ah =>
    obtain ⟨hc, _, _, _⟩ := handler_addDescr_state p gif status u' ah p' calls he
    obtain ⟨spre, s, spost, cs', hsplit, hspre, hcs', hsv⟩ :=
      profileAddDescr_shape status u' ah p.services p'.services hc
    obtain ⟨cpre, c, cpost, ds', hcsplit, hcpre, hds', hcs2⟩ :=
      addDescrChars_shape status u' ah s.characteristics cs' hcs'
    rw [hsplit] at hInv
    intro s' hs' hsu' c' hcmem
    rw [hsv, List.mem_append, List.mem_cons] at hs'
    rcases hs' with hs' | rfl | hs'
    · exact hInv s' (List.mem_append.2 (Or.inl hs')) hsu' c' hcmem
    · have hsu2 : s.uuid ≠ uA := hsu'
      have hsmem : s ∈ spre ++ s :: spost :=
        List.mem_append.2 (Or.inr (List.mem_cons_self s spost))
      have hcmem2 : c' ∈ cs' := hcmem
      rw [hcs2, List.mem_append, List.mem_cons] at hcmem2
      have hcmemS : ∀ y, y ∈ s.characteristics → y.uuid ∉ charUs := fun y hy =>
        hInv s hsmem hsu2 y hy
      rcases hcmem2 with hm | rfl | hm
      · exact hcmemS c' (hcsplit ▸ List.mem_append.2 (Or.inl hm))
      · exact hcmemS c (hcsplit ▸ List.mem_append.2 (Or.inr (List.mem_cons_self c cpost)))
      · exact hcmemS c' (hcsplit ▸ List.mem_append.2 (Or.inr (List.mem_cons_of_mem c hm)))
    · exact hInv s' (List.mem_append.2 (Or.inr (List.mem_cons_of_mem s hs'))) hsu' c' hcmem
  | read connId transId handle =>
    rw [(handler_read_state p gif connId transId handle p' calls he).1]; exact hInv
  | connect bda =>
    rw [(handler_quiet_state p gif _ p' calls (Or.inl ⟨bda, rfl⟩) he).1]; exact hInv
  | disconnect bda =>
    rw [(handler_quiet_state p gif _ p' calls (Or.inr (Or.inl ⟨bda, rfl⟩)) he).1]
    exact hInv
  | mtu m =>
    rw [(handler_quiet_state p gif _ p' calls (Or.inr (Or.inr (Or.inl ⟨m, rfl⟩))) he).1]
    exact hInv
  | other code =>
    rw [(handler_quiet_state p gif _ p' calls (Or.inr (Or.inr (Or.inr ⟨code, rfl⟩))) he).1]
    exact hInv

lemma descrsOwn_handler (p : Profile) (gif : Nat) (e : GattsEvent)
    (p' : Profile) (calls : List Call)
    (he : p.gatts_event_handler gif e = Except.ok (p', calls))
    (charUs descrUs : List BleUuid)
    (hInv : DescrsOwn charUs descrUs p.services) :
    DescrsOwn charUs descrUs p'.services := by
  cases e with
  | reg status appId => rw [handler_reg_state p gif status appId p' calls he]; exact hInv
  | create status u' h =>
    obtain ⟨hc, _, _⟩ := handler_create_state p gif status u' h p' calls he
    obtain ⟨pre, s, post, hsplit, hpre, hsu, hcase⟩ :=
      profileCreate_shape status u' h p.services p'.services calls hc
    rw [hsplit] at hInv
    intro s' hs' c hcmem hcu d hd
    rcases hcase with ⟨_, hb, _⟩ | ⟨_, hb, _⟩ <;> rw [hb] at hs' <;>
      rw [List.mem_append, List.mem_cons] at hs'
    · have hsmem : s ∈ pre ++ s :: post :=
        List.mem_append.2 (Or.inr (List.mem_cons_self s post))
      rcases hs' with hs' | rfl | hs'
      · exact hInv s' (List.mem_append.2 (Or.inl hs')) c hcmem hcu d hd
      · exact hInv s hsmem c hcmem hcu d hd
      · exact hInv s' (List.mem_append.2 (Or.inr (List.mem_cons_of_mem s hs'))) c hcmem hcu d hd
    · have hsmem : s ∈ pre ++ s :: post :=
        List.mem_append.2 (Or.inr (List.mem_cons_self s post))
      rcases hs' with hs' | rfl | hs'
      · exact hInv s' (List.mem_append.2 (Or.inl hs')) c hcmem hcu d hd
      · rcases List.mem_map.1 hcmem with ⟨c0, hc0, rfl⟩
        exact hInv s hsmem c0 hc0 hcu d hd
      · exact hInv s' (List.mem_append.2 (Or.inr (List.mem_cons_of_mem s hs'))) c hcmem hcu d hd
  | start status h =>
    rw [(handler_start_state p gif status h p' calls he).1]; exact hInv
  | addChar status u' ah =>
    obtain ⟨hc, _, _⟩ := handler_addChar_state p gif status u' ah p' calls he
    obtain ⟨spre, s, spost, cpre, c, cpost, hsplit, hcs, hspre, hcpre, hcu, hcase⟩ :=
      profileAddChar_shape status u' ah p.services p'.services calls hc
    rcases hcase with ⟨_, hb, _⟩ | ⟨hst, hb, _⟩
    · rw [hb]; exact hInv
    · rw [hsplit] at hInv
      intro s' hs' c' hcmem hcu' d hd
      rw [hb, List.mem_append, List.mem_cons] at hs'
      have hsmem : s ∈ spre ++ s :: spost :=
        List.mem_append.2 (Or.inr (List.mem_cons_self s spost))
      rcases hs' with hs' | rfl | hs'
      · exact hInv s' (List.mem_append.2 (Or.inl hs')) c' hcmem hcu' d hd
      · have hcmem2 : c' ∈ cpre ++ ({ c with attribute_handle := some ah }) :: cpost := hcmem
        rw [List.mem_append, List.mem_cons] at hcmem2
        have hSc : ∀ y, y ∈ s.characteristics → y.uuid ∉ charUs →
            ∀ d0 ∈ y.descriptors, d0.uuid ∉ descrUs := fun y hy => hInv s hsmem y hy
        rcases hcmem2 with hm | rfl | hm
        · exact hSc c' (hcs ▸ List.mem_append.2 (Or.inl hm)) hcu' d hd
        · exact hSc c (hcs ▸ List.mem_append.2 (Or.inr (List.mem_cons_self c cpost)))
            hcu' d hd
        · exact hSc c' (hcs ▸ List.mem_append.2 (Or.inr (List.mem_cons_of_mem c hm)))
            hcu' d hd
      · exact hInv s' (List.mem_append.2 (Or.inr (List.mem_cons_of_mem s hs'))) c' hcmem hcu' d hd
  | addCharDescr status u' ah =>
    obtain ⟨hc, _, _, _⟩ := handler_addDescr_state p gif status u' ah p' calls he
    obtain ⟨spre, s, spost, cs', hsplit, hspre, hcs', hsv⟩ :=
      profileAddDescr_shape status u' ah p.services p'.services hc
    obtain ⟨cpre, c, cpost, ds', hcsplit, hcpre, hds', hcs2⟩ :=
      addDescrChars_shape status u' ah s.characteristics cs' hcs'
    obtain ⟨dpre, d0, dpost, hdsplit, hdpre, hdu, hdcase⟩ :=
      addDescrDescrs_shape status u' ah c.descriptors ds' hds'
    rw [hsplit] at hInv
    intro s' hs' c' hcmem hcu' d hd
    rw [hsv, List.mem_append, List.mem_cons] at hs'
    have hsmem : s ∈ spre ++ s :: spost :=
      List.mem_append.2 (Or.inr (List.mem_cons_self s spost))
    have hSc : ∀ y, y ∈ s.characteristics → y.uuid ∉ charUs →
        ∀ z ∈ y.descriptors, z.uuid ∉ descrUs := fun y hy => hInv s hsmem y hy
    rcases hs' with hs' | rfl | hs'
    · exact hInv s' (List.mem_append.2 (Or.inl hs')) c' hcmem hcu' d hd
    · have hcmem2 : c' ∈ cs' := hcmem
      rw [hcs2, List.mem_append, List.mem_cons] at hcmem2
      have hcMem : c ∈ s.characteristics :=
        hcsplit ▸ List.mem_append.2 (Or.inr (List.mem_cons_self c cpost))
      rcases hcmem2 with hm | rfl | hm
      · exact hSc c' (hcsplit ▸ List.mem_append.2 (Or.inl hm)) hcu' d hd
      · have hcu2 : c.uuid ∉ charUs := hcu'
        have hdc : ∀ z ∈ c.descriptors, z.uuid ∉ descrUs := hSc c hcMem hcu2
        have hd2 : d ∈ ds' := hd
        rcases hdcase with ⟨_, hb⟩ | ⟨hstd, hb⟩
        · rw [hb] at hd2
          exact hdc d hd2
        · rw [hb, List.mem_append, List.mem_cons] at hd2
          rw [hdsplit] at hdc
          rcases hd2 with hm2 | rfl | hm2
          · exact hdc d (List.mem_append.2 (Or.inl hm2))
          · exact hdc d0 (List.mem_append.2 (Or.inr (List.mem_cons_self d0 dpost)))
          · exact hdc d (List.mem_append.2 (Or.inr (List.mem_cons_of_mem d0 hm2)))
      · exact hSc c' (hcsplit ▸ List.mem_append.2 (Or.inr (List.mem_cons_of_mem c hm)))
          hcu' d hd
    · exact hInv s' (List.mem_append.2 (Or.inr (List.mem_cons_of_mem s hs'))) c' hcmem hcu' d hd
  | read connId transId handle =>
    rw [(handler_read_state p gif connId transId handle p' calls he).1]; exact hInv
  | connect bda =>
    rw [(handler_quiet_state p gif _ p' calls (Or.inl ⟨bda, rfl⟩) he).1]; exact hInv
  | disconnect bda =>
    rw [(handler_quiet_state p gif _ p' calls (Or.inr (Or.inl ⟨bda, rfl⟩)) he).1]
    exact hInv
  | mtu m =>
    rw [(handler_quiet_state p gif _ p' calls (Or.inr (Or.inr (Or.inl ⟨m, rfl⟩))) he).1]
    exact hInv
  | other code =>
    rw [(handler_quiet_state p gif _ p' calls (Or.inr (Or.inr (Or.inr ⟨code, rfl⟩))) he).1]
    exact hInv

lemma step_calls_avoid (p : Profile) (gif : Nat) (e : GattsEvent)
    (p' : Profile) (calls : List Call)
    (he : p.gatts_event_handler gif e = Except.ok (p', calls))
    (uA : BleUuid) (hA : Nat) (charUs descrUs : List BleUuid)
    (hInv1 : CharsOwn uA charUs p.services)
    (hInv2 : DescrsOwn charUs descrUs p.services)
    (hEv : avoidsSubtree uA hA charUs descrUs e = true) :
    ∀ x ∈ calls, touchesSubtree hA charUs descrUs x = false := by
  cases e with
  | reg status appId =>
    rcases handler_reg_calls p gif status appId p' calls he with hc | ⟨i, hc⟩
    · subst hc
      intro x hx
      exact absurd hx (List.not_mem_nil x)
    · subst hc
      intro x hx
      rcases List.mem_flatten.1 hx with ⟨l, hl, hxl⟩
      rcases List.mem_map.1 hl with ⟨s, _, rfl⟩
      simp only [Service.register] at hxl
      rcases List.mem_singleton.1 hxl with rfl
      rfl
  | create status u' h =>
    simp only [avoidsSubtree, decide_eq_true_eq] at hEv
    obtain ⟨hc, _, _⟩ := handler_create_state p gif status u' h p' calls he
    obtain ⟨pre, s, post, hsplit, hpre, hsu, hcase⟩ :=
      profileCreate_shape status u' h p.services p'.services calls hc
    rcases hcase with ⟨_, _, hcalls⟩ | ⟨_, _, hcalls⟩
    · subst hcalls
      intro x hx
      exact absurd hx (List.not_mem_nil x)
    · subst hcalls
      have hsmem : s ∈ p.services :=
        hsplit ▸ List.mem_append.2 (Or.inr (List.mem_cons_self s post))
      have hsuA : s.uuid ≠ uA := hsu ▸ hEv.1
      intro x hx
      rcases List.mem_cons.1 hx with rfl | hx
      · simp [touchesSubtree, hEv.2]
      · rcases List.mem_map.1 hx with ⟨c0, hc0, rfl⟩
        have : c0.uuid ∉ charUs := hInv1 s hsmem hsuA c0 hc0
        simp [touchesSubtree, addCharCall, this]
  | start status h =>
    obtain ⟨_, hcalls⟩ := handler_start_state p gif status h p' calls he
    subst hcalls
    intro x hx
    exact absurd hx (List.not_mem_nil x)
  | addChar status u' ah =>
    obtain ⟨hc, _, _⟩ := handler_addChar_state p gif status u' ah p' calls he
    obtain ⟨spre, s, spost, cpre, c, cpost, hsplit, hcs, hspre, hcpre, hcu, hcase⟩ :=
      profileAddChar_shape status u' ah p.services p'.services calls hc
    rcases hcase with ⟨_, _, hcalls⟩ | ⟨hst, _, hreg⟩
    · subst hcalls
      intro x hx
      exact absurd hx (List.not_mem_nil x)
    · simp only [avoidsSubtree, decide_eq_true_eq] at hEv
      have hu'cu : u' ∉ charUs := hEv hst
      have hsmem : s ∈ p.services :=
        hsplit ▸ List.mem_append.2 (Or.inr (List.mem_cons_self s spost))
      have hcmem : c ∈ s.characteristics :=
        hcs ▸ List.mem_append.2 (Or.inr (List.mem_cons_self c cpost))
      have hcnot : c.uuid ∉ charUs := hcu ▸ hu'cu
      have hdescr : ∀ d ∈ c.descriptors, d.uuid ∉ descrUs :=
        hInv2 s hsmem c hcmem hcnot
      rcases register_descriptors_ok_cases _ calls hreg with hcalls | ⟨sh, _, hcalls⟩
      · subst hcalls
        intro x hx
        exact absurd hx (List.not_mem_nil x)
      · subst hcalls
        intro x hx
        rcases List.mem_flatten.1 hx with ⟨l, hl, hxl⟩
        rcases List.mem_map.1 hl with ⟨d, hd, rfl⟩
        simp only [Descriptor.register_self] at hxl
        rcases List.mem_singleton.1 hxl with rfl
        have hd2 : d ∈ c.descriptors := hd
        simp [touchesSubtree, hdescr d hd2]
  | addCharDescr status u' ah =>
    obtain ⟨_, hcalls, _, _⟩ := handler_addDescr_state p gif status u' ah p' calls he
    subst hcalls
    intro x hx
    exact absurd hx (List.not_mem_nil x)
  | read connId transId handle =>
    obtain ⟨_, hcalls⟩ := handler_read_state p gif connId transId handle p' calls he
    subst hcalls
    intro x hx
    unfold readRespCalls at hx
    rcases List.mem_flatten.1 hx with ⟨l, hl, hxl⟩
    rcases List.mem_map.1 hl with ⟨s, _, rfl⟩
    rcases List.mem_flatten.1 hxl with ⟨l2, hl2, hxl2⟩
    rcases List.mem_map.1 hl2 with ⟨c, _, rfl⟩
    by_cases hm : c.attribute_handle = some handle
    · rw [if_pos hm] at hxl2
      rcases List.mem_singleton.1 hxl2 with rfl
      rfl
    · rw [if_neg hm] at hxl2
      exact absurd hxl2 (List.not_mem_nil x)
  | connect bda =>
    obtain ⟨_, hcalls⟩ := handler_quiet_state p gif _ p' calls (Or.inl ⟨bda, rfl⟩) he
    subst hcalls
    intro x hx
    exact absurd hx (List.not_mem_nil x)
  | disconnect bda =>
    obtain ⟨_, hcalls⟩ :=
      handler_quiet_state p gif _ p' calls (Or.inr (Or.inl ⟨bda, rfl⟩)) he
    subst hcalls
    intro x hx
    exact absurd hx (List.not_mem_nil x)
  | mtu m =>
    obtain ⟨_, hcalls⟩ :=
      handler_quiet_state p gif _ p' calls (Or.inr (Or.inr (Or.inl ⟨m, rfl⟩))) he
    subst hcalls
    intro x hx
    exact absurd hx (List.not_mem_nil x)
  | other code =>
    obtain ⟨_, hcalls⟩ :=
      handler_quiet_state p gif _ p' calls (Or.inr (Or.inr (Or.inr ⟨code, rfl⟩))) he
    subst hcalls
    intro x hx
    exact absurd hx (List.not_mem_nil x)

lemma runProfile_calls_avoid (uA : BleUuid) (hA : Nat) (charUs descrUs : List BleUuid)
    (t : List (Nat × GattsEvent)) :
    ∀ p p' calls, runProfileEvents p t = Except.ok (p', calls) →
    (∀ x ∈ t, avoidsSubtree uA hA charUs descrUs x.2 = true) →
    CharsOwn uA charUs p.services → DescrsOwn charUs descrUs p.services →
    ∀ c ∈ calls, touchesSubtree hA charUs descrUs c = false := by
  induction t with
  | nil =>
    intro p p' calls h _ _ _
    simp only [runProfileEvents, Except.ok.injEq, Prod.mk.injEq] at h
    rw [← h.2]
    intro c hc
    exact absurd hc (List.not_mem_nil c)
  | cons x rest ih =>
    obtain ⟨gif, e⟩ := x
    intro p p' calls h hEv hInv1 hInv2
    cases hs : p.gatts_event_handler gif e with
    | error er => simp [runProfileEvents, hs] at h
    | ok pr =>
      obtain ⟨p1, c1⟩ := pr
      cases hr : runProfileEvents p1 rest with
      | error er => simp [runProfileEvents, hs, hr] at h
      | ok pr2 =>
        obtain ⟨p2, c2⟩ := pr2
        simp only [runProfileEvents, hs, hr, Except.ok.injEq, Prod.mk.injEq] at h
        rw [← h.2]
        intro c hc
        rcases List.mem_append.1 hc with hc | hc
        · exact step_calls_avoid p gif e p1 c1 hs uA hA charUs descrUs hInv1 hInv2
            (hEv (gif, e) (List.mem_cons_self _ rest)) c hc
        · exact ih p1 p2 c2 hr
            (fun y hy => hEv y (List.mem_cons_of_mem _ hy))
            (charsOwn_handler p gif e p1 c1 hs uA charUs hInv1)
            (descrsOwn_handler p gif e p1 c1 hs charUs descrUs hInv2) c hc

lemma modified_register_descriptors (c : Characteristic) (ah sh : Nat)
    (hsh : c.service_handle = some sh) :
    ({ c with attribute_handle := some ah } : Characteristic).register_descriptors =
      Except.ok ((c.descriptors.map (fun d => d.register_self sh)).flatten) := by
  show registerDescriptorsAux c.service_handle c.descriptors = _
  rw [hsh, registerDescriptorsAux_some]

lemma addCharChars_ok (u : BleUuid) (ah : Nat) (cpre : List Characteristic)
    (c : Characteristic) (cpost : List Characteristic) (sh : Nat)
    (hcpre : ∀ y ∈ cpre, y.uuid ≠ u) (hcu : c.uuid = u)
    (hsh : c.service_handle = some sh) :
    addCharChars ESP_GATT_OK u ah (cpre ++ c :: cpost) =
      some (Except.ok (cpre ++ ({ c with attribute_handle := some ah }) :: cpost,
        (c.descriptors.map (fun d => d.register_self sh)).flatten)) := by
  subst hcu
  induction cpre with
  | nil =>
    simp [addCharChars, modified_register_descriptors c ah sh hsh]
  | cons x xs ih =>
    have hx : x.uuid ≠ c.uuid := hcpre x (List.mem_cons_self x xs)
    have hxs : ∀ y ∈ xs, y.uuid ≠ c.uuid :=
      fun y hy => hcpre y (List.mem_cons_of_mem x hy)
    simp [addCharChars, hx, ih hxs]

lemma profileAddChar_ok (u : BleUuid) (ah : Nat) (spre : List Service) (s : Service)
    (spost : List Service) (cpre : List Characteristic) (c : Characteristic)
    (cpost : List Characteristic) (sh : Nat)
    (hspre : ∀ x ∈ spre, ∀ y ∈ x.characteristics, y.uuid ≠ u)
    (hcs : s.characteristics = cpre ++ c :: cpost)
    (hcpre : ∀ y ∈ cpre, y.uuid ≠ u) (hcu : c.uuid = u)
    (hsh : c.service_handle = some sh) :
    profileAddChar ESP_GATT_OK u ah (spre ++ s :: spost) =
      Except.ok (spre ++ ({ s with characteristics :=
          cpre ++ ({ c with attribute_handle := some ah }) :: cpost }) :: spost,
        (c.descriptors.map (fun d => d.register_self sh)).flatten) := by
  induction spre with
  | nil =>
    have hok := addCharChars_ok u ah cpre c cpost sh hcpre hcu hsh
    simp [profileAddChar, hcs, hok]
  | cons x xs ih =>
    have hx : addCharChars ESP_GATT_OK u ah x.characteristics = none :=
      addCharChars_none ESP_GATT_OK u ah x.characteristics
        (hspre x (List.mem_cons_self x xs))
    have hxs : ∀ y ∈ xs, ∀ z ∈ y.characteristics, z.uuid ≠ u :=
      fun y hy => hspre y (List.mem_cons_of_mem x hy)
    simp [profileAddChar, hx, ih hxs]

/-- The UUIDs of a service's characteristics. -/
def charUuids (s : Service) : List BleUuid := s.characteristics.map Characteristic.uuid

/-- The UUIDs of all descriptors under a service's characteristics. -/
def descrUuids (s : Service) : List BleUuid :=
  (s.characteristics.map (fun c => c.descriptors.map Descriptor.uuid)).flatten

lemma charsQ_handle_update (u : BleUuid) (Q : Option Nat → Prop)
    (pre post : List Service) (sA : Service) (hA : Nat)
    (h : CharsQ u Q (pre ++ sA :: post)) :
    CharsQ u Q (pre ++ ({ sA with handle := some hA }) :: post) := by
  rw [CharsQ_append, CharsQ_cons] at h ⊢
  exact ⟨h.1, h.2.1, h.2.2⟩

lemma descrsQ_handle_update (u : BleUuid) (Q : Option Nat → Prop)
    (pre post : List Service) (sA : Service) (hA : Nat)
    (h : DescrsQ u Q (pre ++ sA :: post)) :
    DescrsQ u Q (pre ++ ({ sA with handle := some hA }) :: post) := by
  rw [DescrsQ_append, DescrsQ_cons] at h ⊢
  exact ⟨h.1, h.2.1, h.2.2⟩

lemma charsOwn_handle_update (uA : BleUuid) (charUs : List BleUuid)
    (pre post : List Service) (sA : Service) (hA : Nat)
    (h : CharsOwn uA charUs (pre ++ sA :: post)) :
    CharsOwn uA charUs (pre ++ ({ sA with handle := some hA }) :: post) := by
  intro s' hs' hsu' c hc
  rw [List.mem_append, List.mem_cons] at hs'
  rcases hs' with hs' | rfl | hs'
  · exact h s' (List.mem_append.2 (Or.inl hs')) hsu' c hc
  · exact h sA (List.mem_append.2 (Or.inr (List.mem_cons_self sA post))) hsu' c hc
  · exact h s' (List.mem_append.2 (Or.inr (List.mem_cons_of_mem sA hs'))) hsu' c hc

lemma descrsOwn_handle_update (charUs descrUs : List BleUuid)
    (pre post : List Service) (sA : Service) (hA : Nat)
    (h : DescrsOwn charUs descrUs (pre ++ sA :: post)) :
    DescrsOwn charUs descrUs (pre ++ ({ sA with handle := some hA }) :: post) := by
  intro s' hs' c hc hcu d hd
  rw [List.mem_append, List.mem_cons] at hs'
  rcases hs' with hs' | rfl | hs'
  · exact h s' (List.mem_append.2 (Or.inl hs')) c hc hcu d hd
  · exact h sA (List.mem_append.2 (Or.inr (List.mem_cons_self sA post))) c hc hcu d hd
  · exact h s' (List.mem_append.2 (Or.inr (List.mem_cons_of_mem sA hs'))) c hc hcu d hd

/-- C4: after a failed service-created confirmation for service `sA`, (i) the
handler issues no call; (ii) along any continuation whose events leave the
failed subtree alone — the stack's one-confirmation-per-request regime, since
no registration was requested for that subtree — all of `sA`'s
characteristic and descriptor attribute handles remain `None`, and no
start-service, add-characteristic or add-descriptor call for that subtree is
ever issued; while (iii) a sibling service whose creation succeeds is started
and populated, and (iv) each of its characteristic confirmations cascades to
its descriptor registrations. -/
theorem failed_service_subtree_quiescent
    (p : Profile) (gif status hA : Nat) (uA : BleUuid)
    (pre post : List Service) (sA : Service)
    (hsplit : p.services = pre ++ sA :: post)
    (hpre : ∀ x ∈ pre, x.uuid ≠ uA) (hu : sA.uuid = uA)
    (hst : status ≠ ESP_GATT_OK) :
    p.gatts_event_handler gif (GattsEvent.create status uA hA) =
      Except.ok ({ p with services := pre ++ ({ sA with handle := some hA }) :: post },
        []) ∧
    (∀ t p' calls,
      runProfileEvents
        { p with services := pre ++ ({ sA with handle := some hA }) :: post } t =
        Except.ok (p', calls) →
      (∀ x ∈ t, avoidsSubtree uA hA (charUuids sA) (descrUuids sA) x.2 = true) →
      (∀ c0 ∈ sA.characteristics, CharsQ c0.uuid (fun o => o = none) p.services) →
      (∀ c0 ∈ sA.characteristics, ∀ d0 ∈ c0.descriptors,
        DescrsQ d0.uuid (fun o => o = none) p.services) →
      CharsOwn uA (charUuids sA) p.services →
      DescrsOwn (charUuids sA) (descrUuids sA) p.services →
      (∀ c0 ∈ sA.characteristics, CharsQ c0.uuid (fun o => o = none) p'.services) ∧
      (∀ c0 ∈ sA.characteristics, ∀ d0 ∈ c0.descriptors,
        DescrsQ d0.uuid (fun o => o = none) p'.services) ∧
      (∀ c ∈ calls, touchesSubtree hA (charUuids sA) (descrUuids sA) c = false)) ∧
    (∀ (q : Profile) (uB : BleUuid) (hB : Nat) (pre2 post2 : List Service)
      (sB : Service),
      q.services = pre2 ++ sB :: post2 → (∀ x ∈ pre2, x.uuid ≠ uB) → sB.uuid = uB →
      (∀ c ∈ sB.characteristics, ¬ violAuto c) →
      q.gatts_event_handler gif (GattsEvent.create ESP_GATT_OK uB hB) =
        Except.ok ({ q with services := pre2 ++ ({ sB with
            handle := some hB
            characteristics := sB.characteristics.map (registeredChar hB) }) :: post2 },
          Call.startService hB :: sB.characteristics.map (addCharCall hB))) ∧
    (∀ (q : Profile) (u : BleUuid) (ah sh : Nat) (spre2 spost2 : List Service)
      (s : Service) (cpre cpost : List Characteristic) (c : Characteristic),
      q.services = spre2 ++ s :: spost2 →
      (∀ x ∈ spre2, ∀ y ∈ x.characteristics, y.uuid ≠ u) →
      s.characteristics = cpre ++ c :: cpost → (∀ y ∈ cpre, y.uuid ≠ u) →
      c.uuid = u → c.service_handle = some sh →
      q.gatts_event_handler gif (GattsEvent.addChar ESP_GATT_OK u ah) =
        Except.ok ({ q with services := spre2 ++ ({ s with characteristics :=
            cpre ++ ({ c with attribute_handle := some ah }) :: cpost }) :: spost2 },
          (c.descriptors.map (fun d => d.register_self sh)).flatten)) := by
  refine ⟨?_, ?_, ?_, ?_⟩
  · simp [Profile.gatts_event_handler, hsplit,
      profileCreate_fail status uA hA pre sA post hpre hu hst]
  · intro t p' calls hrun hEv hN1 hN2 hOwn1 hOwn2
    rw [hsplit] at hN1 hN2 hOwn1 hOwn2
    have hOwn1' := charsOwn_handle_update uA (charUuids sA) pre post sA hA hOwn1
    have hOwn2' := descrsOwn_handle_update (charUuids sA) (descrUuids sA)
      pre post sA hA hOwn2
    refine ⟨?_, ?_, ?_⟩
    · intro c0 hc0
      refine runProfile_charsQ c0.uuid (fun o => o = none) t _ p' calls hrun ?_
        (charsQ_handle_update c0.uuid _ pre post sA hA (hN1 c0 hc0))
      intro x hx ah heq
      have hx2 := hEv x hx
      rw [heq] at hx2
      simp only [avoidsSubtree, decide_eq_true_eq] at hx2
      have : c0.uuid ∈ charUuids sA := List.mem_map.2 ⟨c0, hc0, rfl⟩
      exact absurd this (hx2 trivial)
    · intro c0 hc0 d0 hd0
      refine runProfile_descrsQ d0.uuid (fun o => o = none) t _ p' calls hrun ?_
        (descrsQ_handle_update d0.uuid _ pre post sA hA (hN2 c0 hc0 d0 hd0))
      intro x hx ah heq
      have hx2 := hEv x hx
      rw [heq] at hx2
      simp only [avoidsSubtree, decide_eq_true_eq] at hx2
      have : d0.uuid ∈ descrUuids sA :=
        List.mem_flatten.2 ⟨c0.descriptors.map Descriptor.uuid,
          List.mem_map.2 ⟨c0, hc0, rfl⟩, List.mem_map.2 ⟨d0, hd0, rfl⟩⟩
      exact absurd this (hx2 trivial)
    · exact runProfile_calls_avoid uA hA (charUuids sA) (descrUuids sA) t _ p' calls
        hrun hEv hOwn1' hOwn2'
  · intro q uB hB pre2 post2 sB hsplit2 hpre2 huB hv
    simp [Profile.gatts_event_handler, hsplit2,
      profileCreate_ok uB hB pre2 sB post2 hpre2 huB hv]
  · intro q u ah sh spre2 spost2 s cpre cpost c hsplit2 hspre2 hcs hcpre hcu hsh
    simp [Profile.gatts_event_handler, hsplit2,
      profileAddChar_ok u ah spre2 s spost2 cpre c cpost sh hspre2 hcs hcpre hcu hsh]

/-- A sibling characteristic with one descriptor. -/
def cB4 : Characteristic :=
  { Characteristic.new "cB" (BleUuid.uuid16 22) 0 0 with
    descriptors := [Descriptor.new (BleUuid.uuid16 32) 0] }

/-- A sibling service. -/
def sB4 : Service := Service.new (BleUuid.uuid16 2) true [cB4]

/-- A profile with a failing service `sEx` and a sibling `sB4`. -/
def pEx4 : Profile :=
  { identifier := 100, interface := some 3, services := [sEx, sB4] }

/-- The profile after `sEx`'s creation fails (handle set, subtree dormant). -/
def pQ1 : Profile :=
  { pEx4 with services := [{ sEx with handle := some 40 }, sB4] }

/-- The continuation: the sibling's creation succeeds and its characteristic
and descriptor confirmations arrive. -/
def tQ : List (Nat × GattsEvent) :=
  [(3, GattsEvent.create 0 (BleUuid.uuid16 2) 8),
   (3, GattsEvent.addChar 0 (BleUuid.uuid16 22) 9),
   (3, GattsEvent.addCharDescr 0 (BleUuid.uuid16 32) 10)]

/-- The final state of the `tQ` run: the sibling fully registered, the failed
subtree untouched. -/
def pQfin : Profile :=
  { pEx4 with services :=
    [{ sEx with handle := some 40 },
     { sB4 with handle := some 8, characteristics :=
       [{ cB4 with attribute_handle := some 9, service_handle := some 8,
                   descriptors :=
                     [{ Descriptor.new (BleUuid.uuid16 32) 0 with
                        attribute_handle := some 10 }] }] }] }

/-- The calls of the `tQ` run: only sibling-subtree registrations. -/
def callsQ : List Call :=
  [Call.startService 8, Call.addChar 8 (BleUuid.uuid16 22) 0 0 0 0 [],
   Call.addDescriptor 8 (BleUuid.uuid16 32) 0]

/-- Witness for `failed_service_subtree_quiescent`: the failing creation of
`sEx` issues nothing; across the sibling's full registration the failed
subtree's handles stay `None` and no call targets it. -/
theorem failed_service_subtree_quiescent_witness :
    pEx4.gatts_event_handler 3 (GattsEvent.create 1 (BleUuid.uuid16 1) 40) =
      Except.ok (pQ1, []) ∧
    runProfileEvents pQ1 tQ = Except.ok (pQfin, callsQ) ∧
    CharsQ (BleUuid.uuid16 21) (fun o => o = none) pQfin.services ∧
    DescrsQ (BleUuid.uuid16 31) (fun o => o = none) pQfin.services ∧
    (∀ c ∈ callsQ, touchesSubtree 40 (charUuids sEx) (descrUuids sEx) c = false) := by
  obtain ⟨h1, h2, h3, h4⟩ :=
    failed_service_subtree_quiescent pEx4 3 1 40 (BleUuid.uuid16 1) [] [sB4] sEx
      rfl (by simp) rfl (by decide)
  obtain ⟨q1, q2, q3⟩ := h2 tQ pQfin callsQ rfl (by decide)
    (by
      intro c0 hc0
      rcases List.mem_singleton.1 hc0 with rfl
      unfold CharsQ
      decide)
    (by
      intro c0 hc0 d0 hd0
      rcases List.mem_singleton.1 hc0 with rfl
      rcases List.mem_singleton.1 hd0 with rfl
      unfold DescrsQ
      decide)
    (by unfold CharsOwn; decide)
    (by unfold DescrsOwn; decide)
  exact ⟨h1, rfl, q1 cFreshD (by decide),
    q2 cFreshD (by decide) (Descriptor.new (BleUuid.uuid16 31) 3) (by decide), q3⟩

end Bluedroid
